import Mathlib

/-
Verification of the corona-permit-sync change-detection core against its
specification.  The TypeScript source is shallowly embedded: pure helper
functions are translated directly, stateful routines become pure functions
over explicit state values plus effect traces, and external I/O (database,
HTTP, LLM) is represented by oracle parameters supplying the outcome of each
external call.  JavaScript peculiarities that the source relies on are kept:
stable sort semantics, Map insertion-order/last-write-wins semantics,
truthiness checks on numbers, and Array.prototype.join treating null as the
empty string.  String locale comparison is modeled as code-point
lexicographic order.
-/

-- ========================================================================
-- String utilities mirroring the JavaScript string operations used by the
-- source (split on a single-character separator, padStart(2, zero), trim).
-- ========================================================================

/-- Models JS `str.split(c)` for a one-character separator, at the level of
character lists.  `"".split(c)` gives `[""]`, separators at the edges give
empty fragments, exactly as in JS. -/
def splitOnChar (c : Char) : List Char → List (List Char)
  | [] => [[]]
  | x :: xs =>
    let rest := splitOnChar c xs
    if x = c then [] :: rest
    else
      match rest with
      | r :: rs => (x :: r) :: rs
      | [] => [[x]]

/-- Models JS `str.split(c)` on strings. -/
def jsSplit (s : String) (c : Char) : List String :=
  (splitOnChar c s.data).map String.mk

/-- Models JS `str.padStart(2, zero)` as used by the date normalizers. -/
def padStart2 (s : String) : String :=
  if s.length < 2 then String.mk (List.replicate (2 - s.length) '0') ++ s else s

/-- Models JS `str.trim()` (whitespace stripped from both ends). -/
def jsTrim (s : String) : String :=
  String.mk (((s.data.dropWhile Char.isWhitespace).reverse.dropWhile
    Char.isWhitespace).reverse)

/-- Models JS `array[0]` on the result of a split (always nonempty, but the
JS expression would yield undefined-coerced-to-empty on an empty array). -/
def headOrEmpty : List String → String
  | [] => ""
  | x :: _ => x

-- ========================================================================
-- src/utils/external-id.ts : date normalization (claim C3)
-- ========================================================================

/-- Embeds `normalizeDate` from src/utils/external-id.ts: empty input maps
to the empty string, input is split on the first space, then on slashes; a
three-part split is reassembled as YYYY-MM-DD with zero padding, and any
other shape returns the input string unchanged. -/
def normalizeDate (dateStr : String) : String :=
  if dateStr = "" then ""
  else
    match jsSplit (headOrEmpty (jsSplit dateStr ' ')) '/' with
    | [month, day, year] => year ++ "-" ++ padStart2 month ++ "-" ++ padStart2 day
    | _ => dateStr

/-- Embeds `normalizePermitDate` from src/utils/external-id.ts: null, empty
or whitespace-only input maps to null, a three-part slash split is
reassembled as an ISO-8601 midnight timestamp, and any other shape maps to
null. -/
def normalizePermitDate : Option String → Option String
  | none => none
  | some s =>
    if s = "" ∨ jsTrim s = "" then none
    else
      match jsSplit (headOrEmpty (jsSplit s ' ')) '/' with
      | [month, day, year] =>
        some (year ++ "-" ++ padStart2 month ++ "-" ++ padStart2 day ++ "T00:00:00.000Z")
      | _ => none

-- ========================================================================
-- Code-point lexicographic string comparison, modeling localeCompare
-- ========================================================================

/-- Boolean lexicographic strict order on character lists by code point.
This models the total preorder induced by `a.localeCompare(b)` in the
comparators of src/state/tracker.ts (default collation approximated by
code-point order; the determinism results below depend only on this being
a fixed total preorder). -/
def lexLtB : List Char → List Char → Bool
  | [], [] => false
  | [], _ :: _ => true
  | _ :: _, [] => false
  | a :: as, b :: bs =>
    if a < b then true
    else if b < a then false
    else lexLtB as bs

/-- Models `a.localeCompare(b) < 0`. -/
def strLtB (a b : String) : Bool := lexLtB a.data b.data

/-- Models `a.localeCompare(b) <= 0`. -/
def strLeB (a b : String) : Bool := ! strLtB b a

-- ========================================================================
-- src/parsers/violations.ts : ViolationRecord, restricted to the fields
-- read by the diff engine, state upsert and action layer
-- ========================================================================

/-- Embeds `ViolationRecord` (src/parsers/violations.ts). -/
structure ViolationRecord where
  externalId : String
  activityId : String
  caseNo : String
  violationType : String
  violationStatus : String
  dateObserved : String
  siteAddress : String
deriving DecidableEq, Repr

-- ========================================================================
-- src/state/tracker.ts : diffViolations / upsertViolationState (claim C1)
-- ========================================================================

/-- Boolean form of the sort comparator of `diffViolations` and
`upsertViolationState` (src/state/tracker.ts): ascending by externalId,
tie-broken by violationStatus. -/
def violLeB (a b : ViolationRecord) : Bool :=
  if a.externalId = b.externalId
  then strLeB a.violationStatus b.violationStatus
  else strLtB a.externalId b.externalId

/-- The comparator as a relation, for sorting. -/
def violLe (a b : ViolationRecord) : Prop := violLeB a b = true

instance : DecidableRel violLe :=
  fun a b => inferInstanceAs (Decidable (violLeB a b = true))

/-- Models the JS stable `Array.prototype.sort` of the tracker.  A stable
sort with respect to a fixed total preorder has a unique result, so
insertion sort reproduces it exactly. -/
def sortViolations (l : List ViolationRecord) : List ViolationRecord :=
  List.insertionSort violLe l

/-- Models `Map.prototype.set` keyed by externalId: keys keep first
insertion order, the last written value wins. -/
def jsMapSet (m : List ViolationRecord) (r : ViolationRecord) :
    List ViolationRecord :=
  if m.any (fun x => x.externalId == r.externalId)
  then m.map (fun x => if x.externalId == r.externalId then r else x)
  else m ++ [r]

/-- Models filling the dedup Map and reading `Array.from(map.values())`. -/
def jsMapDedup (l : List ViolationRecord) : List ViolationRecord :=
  l.foldl jsMapSet []

/-- The sort-then-dedup pipeline duplicated verbatim in `diffViolations`
(src/state/tracker.ts lines 174-185) and `upsertViolationState` (lines
242-253). -/
def dedupViolations (records : List ViolationRecord) : List ViolationRecord :=
  jsMapDedup (sortViolations records)

/-- Embeds `ViolationStateChange` (src/state/tracker.ts). -/
structure ViolationStateChange where
  externalId : String
  record : ViolationRecord
  previousStatus : Option String
  newStatus : String
  isNew : Bool
deriving DecidableEq, Repr

/-- Reads the stored violation_status for a key from the violation_state
table, modeled as an association list keyed by external_id. -/
def lookupStatus (state : List (String × String)) (k : String) : Option String :=
  (state.find? (fun p => p.1 == k)).map Prod.snd

/-- Embeds `diffViolations` (src/state/tracker.ts): sort, dedup, bulk state
lookup, then classify each surviving record as new (no stored row), changed
(stored status differs) or unchanged (dropped). -/
def diffViolations (state : List (String × String))
    (records : List ViolationRecord) : List ViolationStateChange :=
  (dedupViolations records).filterMap (fun r =>
    match lookupStatus state r.externalId with
    | none => some ⟨r.externalId, r, none, r.violationStatus, true⟩
    | some cur =>
      if cur ≠ r.violationStatus
      then some ⟨r.externalId, r, some cur, r.violationStatus, false⟩
      else none)

/-- Embeds the row list written by `upsertViolationState`
(src/state/tracker.ts): the deduplicated records in write order (batching
into groups of 1000 writes the same rows in the same order). -/
def upsertViolationRows (records : List ViolationRecord) : List ViolationRecord :=
  dedupViolations records

/-- Claim C1 counterexample data: two records sharing externalId and
violationStatus but differing in siteAddress. -/
def c1r1 : ViolationRecord :=
  ⟨"violation|CC24-1|WEEDS|2024-01-01", "a1", "CC24-1", "WEEDS", "OPEN",
    "2024-01-01", "1 Main St"⟩

/-- Claim C1 counterexample data: same key and status as c1r1, different
address. -/
def c1r2 : ViolationRecord :=
  ⟨"violation|CC24-1|WEEDS|2024-01-01", "a1", "CC24-1", "WEEDS", "OPEN",
    "2024-01-01", "2 Oak Ave"⟩

/-- Claim C1 witness data: records with distinct external ids. -/
def c1w2 : ViolationRecord :=
  ⟨"violation|CC24-2|TRASH|2024-02-02", "a2", "CC24-2", "TRASH", "COMPLIED",
    "2024-02-02", "3 Pine Rd"⟩

-- ========================================================================
-- src/matching/types.ts : base matching types
-- ========================================================================

/-- Embeds `MatchConfidence` (src/matching/types.ts). -/
inductive Confidence
  | high
  | medium
  | low
deriving DecidableEq, Repr

/-- Embeds `MatchResult` (src/matching/types.ts). -/
structure MatchResult where
  ticketId : Option Int
  matchMethod : String
  confidence : Option Confidence
  reasoning : Option String
  needsReview : Bool
deriving DecidableEq, Repr

-- ========================================================================
-- src/sync/threefold.ts closeTicket and the violations-sync
-- processViolationChange (claim C2)
-- ========================================================================

/-- External mutating ticket calls issued by the violation action layer
(moveTicketToStep and addTicketComment in src/sync/threefold.ts). -/
inductive TicketAction
  | moveStep (ticketId : Int) (stepId : Int)
  | comment (ticketId : Int) (content : String)
deriving DecidableEq, Repr

/-- Embeds `CLOSE_STATUSES` of the violations sync module. -/
def CLOSE_STATUSES : List String := ["COMPLIED", "UNFOUNDED"]

/-- Renders a nullable previous status the way a JS template literal renders
it (null prints as the string "null"; diff never produces null here for
non-new changes, but the template is total). -/
def optDisplay : Option String → String
  | none => "null"
  | some s => s

/-- Embeds the close reason strings built by `processViolationChange`. -/
def closeReason (newStatus : String) (prev : Option String) : String :=
  if newStatus = "COMPLIED"
  then "Violation marked as COMPLIED in TrakIT (was: " ++ optDisplay prev ++ ")"
  else "Violation marked as UNFOUNDED in TrakIT (was: " ++ optDisplay prev ++ ")"

/-- Embeds `closeTicket` (src/sync/threefold.ts): move the ticket to the
Close Violation workflow step, then add the audit comment. -/
def closeTicket (closeViolationStepId : Int) (ticketId : Int)
    (reason : String) : List TicketAction :=
  [.moveStep ticketId closeViolationStepId,
   .comment ticketId ("Automatically closed: " ++ reason)]

/-- Embeds the status-update comment built by `processViolationChange`. -/
def statusComment (prev : Option String) (newStatus : String)
    (record : ViolationRecord) : String :=
  "TrakIT status update: " ++
    (optDisplay prev ++ " → " ++ newStatus ++ "\n" ++
      "Violation: " ++ record.violationType ++ "\n" ++
      "Address: " ++ record.siteAddress)

/-- Embeds `processViolationChange` of the violations sync module: new
records are skipped, dry run (ticket updates disabled) skips matching and
all calls, otherwise the matcher result decides: no resolved ticket means
no action, a transition into CLOSE_STATUSES closes the ticket, any other
transition adds the status comment.  The first component records whether
`matchViolationToTicket` was invoked, the second the external ticket calls
issued; the match outcome itself is an oracle argument. -/
def processViolationChange (ticketUpdatesEnabled : Bool)
    (closeViolationStepId : Int) (matchResult : MatchResult)
    (change : ViolationStateChange) : Bool × List TicketAction :=
  if change.isNew then (false, [])
  else if ! ticketUpdatesEnabled then (false, [])
  else
    match matchResult.ticketId with
    | none => (true, [])
    | some t =>
      if t = 0 then (true, [])
      else if change.newStatus ∈ CLOSE_STATUSES then
        (true, closeTicket closeViolationStepId t
          (closeReason change.newStatus change.previousStatus))
      else
        (true, [.comment t (statusComment change.previousStatus
          change.newStatus change.record)])

/-- Claim C2 witness data: a concrete violation record. -/
def c2rec : ViolationRecord :=
  ⟨"violation|CC24-9|WEEDS|2024-03-01", "a9", "CC24-9", "WEEDS", "COMPLIED",
    "2024-03-01", "9 Elm St"⟩

/-- Claim C2 witness data: a resolved match. -/
def c2m : MatchResult := ⟨some 5, "cached", none, none, false⟩

/-- Claim C2 witness data: an OPEN to COMPLIED transition. -/
def c2ch : ViolationStateChange :=
  ⟨"violation|CC24-9|WEEDS|2024-03-01", c2rec, some "OPEN", "COMPLIED", false⟩

-- ========================================================================
-- src/matching/llm-prompt.ts : parseMatchingResponse (claims C5, C6, C10)
-- ========================================================================

/-- The ticketId field of the parsed classifier JSON: the key may be absent
(undefined), explicitly null, or a number. -/
inductive JsonId
  | absent
  | nullv
  | num (n : Int)
deriving DecidableEq, Repr

/-- The classifier response after markdown-fence stripping and JSON.parse;
the whole value is none when JSON.parse throws. -/
structure RawParsed where
  ticketId : JsonId
  confidence : Option String
  reasoning : Option String
deriving DecidableEq, Repr

/-- Embeds `LLMMatchResult` (src/matching/types.ts). -/
structure LLMMatchResult where
  ticketId : Option Int
  confidence : Confidence
  reasoning : String
deriving DecidableEq, Repr

/-- Embeds the confidence validation of `parseMatchingResponse`: any value
outside high/medium/low falls back to low. -/
def validateConfidence : Option String → Confidence
  | some "high" => .high
  | some "medium" => .medium
  | some "low" => .low
  | _ => .low

/-- Embeds `parseMatchingResponse` (src/matching/llm-prompt.ts): a JSON
parse failure yields null; an absent ticketId fails the strict null check
and the member check and yields null; a numeric ticketId outside the
candidate set yields null; otherwise the confidence is validated (fallback
low) and the reasoning coerced to a string. -/
def parseMatchingResponse : Option RawParsed → List Int → Option LLMMatchResult
  | none, _ => none
  | some p, candidateIds =>
    match p.ticketId with
    | .absent => none
    | .nullv => some ⟨none, validateConfidence p.confidence, p.reasoning.getD ""⟩
    | .num n =>
      if n ∈ candidateIds
      then some ⟨some n, validateConfidence p.confidence, p.reasoning.getD ""⟩
      else none

-- ========================================================================
-- src/matching/ticket-matcher.ts : matchViolationToTicket
-- ========================================================================

/-- Embeds `CandidateTicket` (src/matching/types.ts), restricted to the
ticketId field consumed by the matcher control flow. -/
structure CandidateTicket where
  ticketId : Int
deriving DecidableEq, Repr

/-- Embeds `MatchLogEntry` (src/matching/types.ts); prompt/completion token
counts and durationMs are wall-clock cost metrics abstracted away. -/
structure MatchLogEntry where
  externalId : String
  matchMethod : String
  candidateCount : Nat
  selectedTicketId : Option Int
  confidence : Option Confidence
  llmReasoning : Option String
deriving DecidableEq, Repr

/-- Database and external-system writes performed by the matcher
(setMatchedTicketId, queueForReview, logMatchAttempt, setTicketExternalId). -/
inductive MatchEffect
  | setCache (externalId : String) (ticketId : Int) (method : String)
      (confidence : Option Confidence)
  | queueReview (externalId : String) (candidateCount : Nat) (reason : String)
  | logAttempt (entry : MatchLogEntry)
  | stamp (ticketId : Int) (externalId : String)
deriving DecidableEq, Repr

/-- Oracle outcomes of the matcher's external reads: the cached ticket id
(getMatchedTicketId), the external-id lookup (findTicketByExternalId), the
llmMatchingEnabled config flag, the location search (fetchTicketsByLocation),
the classifier call (callOpenAI, response given post-JSON-parse) and whether
a pending review-queue row already exists for the key (isInReviewQueue). -/
structure MatchEnv where
  cached : Option Int
  extLookup : Except Unit (Option Int)
  llmMatchingEnabled : Bool
  locFetch : Except Unit (List CandidateTicket)
  llmResp : Except Unit (Option RawParsed)
  pending : Bool

/-- Result and effect trace of one matcher invocation. -/
structure MatchOutput where
  result : MatchResult
  effects : List MatchEffect
deriving DecidableEq, Repr

/-- Models the guarded review-queue insert used at every queueing site of
the matcher: `if (!(await isInReviewQueue(...))) await queueForReview(...)`. -/
def queueIfAbsent (pending : Bool) (externalId : String)
    (candidateCount : Nat) (reason : String) : List MatchEffect :=
  if pending then [] else [.queueReview externalId candidateCount reason]

/-- Embeds steps 3-11 of `matchViolationToTicket`
(src/matching/ticket-matcher.ts): the llmMatchingEnabled gate, the location
fetch whose failure returns a silent no-match with no writes, the
no-candidates review path (queue then log), the classifier call whose
failure queues for review and returns with no log row, the parse-failure
path (queue then log), the single match-log write for a parsed result, the
low-confidence gate (JS truthiness on the ticket id, so null or 0 count as
no match) and finally the cache write plus best-effort ticket stamp. -/
def matchViaLLM (env : MatchEnv) (externalId : String) : MatchOutput :=
  if ! env.llmMatchingEnabled then ⟨⟨none, "none", none, none, true⟩, []⟩
  else
    match env.locFetch with
    | .error _ => ⟨⟨none, "none", none, none, false⟩, []⟩
    | .ok candidates =>
      if candidates.isEmpty then
        ⟨⟨none, "llm", none, none, true⟩,
         queueIfAbsent env.pending externalId 0 "no_candidates" ++
           [.logAttempt ⟨externalId, "llm", 0, none, none, none⟩]⟩
      else
        match env.llmResp with
        | .error _ =>
          ⟨⟨none, "llm", none, none, true⟩,
           queueIfAbsent env.pending externalId candidates.length "api_error"⟩
        | .ok raw =>
          match parseMatchingResponse raw (candidates.map (·.ticketId)) with
          | none =>
            ⟨⟨none, "llm", none, none, true⟩,
             queueIfAbsent env.pending externalId candidates.length
                 "llm_parse_error" ++
               [.logAttempt ⟨externalId, "llm", candidates.length, none, none,
                 some "parse_error"⟩]⟩
          | some lr =>
            if lr.ticketId.getD 0 = 0 ∨ lr.confidence = .low then
              ⟨⟨lr.ticketId, "llm", some lr.confidence, some lr.reasoning, true⟩,
               MatchEffect.logAttempt ⟨externalId, "llm", candidates.length,
                   lr.ticketId, some lr.confidence, some lr.reasoning⟩ ::
                 queueIfAbsent env.pending externalId candidates.length
                   "low_confidence"⟩
            else
              match lr.ticketId with
              | some t =>
                ⟨⟨some t, "llm", some lr.confidence, some lr.reasoning, false⟩,
                 [MatchEffect.logAttempt ⟨externalId, "llm", candidates.length,
                     lr.ticketId, some lr.confidence, some lr.reasoning⟩,
                  MatchEffect.setCache externalId t "llm" (some lr.confidence),
                  MatchEffect.stamp t externalId]⟩
              | none =>
                ⟨⟨none, "llm", some lr.confidence, some lr.reasoning, true⟩,
                 MatchEffect.logAttempt ⟨externalId, "llm", candidates.length,
                     lr.ticketId, some lr.confidence, some lr.reasoning⟩ ::
                   queueIfAbsent env.pending externalId candidates.length
                     "low_confidence"⟩

/-- Embeds step 2 of `matchViolationToTicket`: the external-id lookup,
whose hit caches and returns and whose failure is swallowed with a warning. -/
def matchUncached (env : MatchEnv) (externalId : String) : MatchOutput :=
  match env.extLookup with
  | .ok (some t) =>
    ⟨⟨some t, "external_id", none, none, false⟩,
     [.setCache externalId t "external_id" none]⟩
  | .ok none => matchViaLLM env externalId
  | .error _ => matchViaLLM env externalId

/-- Embeds `matchViolationToTicket` (src/matching/ticket-matcher.ts), step 1:
the cache fast path under JS truthiness (a zero id falls through). -/
def matchViolationToTicket (env : MatchEnv) (externalId : String) :
    MatchOutput :=
  match env.cached with
  | some t =>
    if t ≠ 0 then ⟨⟨some t, "cached", none, none, false⟩, []⟩
    else matchUncached env externalId
  | none => matchUncached env externalId

/-- Recognizes a cache write in the effect trace. -/
def isSetCache : MatchEffect → Bool
  | .setCache _ _ _ _ => true
  | _ => false

/-- Recognizes a match-log write in the effect trace. -/
def isLogAttempt : MatchEffect → Bool
  | .logAttempt _ => true
  | _ => false

/-- Claim C6 counterexample data: classifier API failure with one
candidate. -/
def c6env : MatchEnv := ⟨none, .ok none, true, .ok [⟨41⟩], .error (), false⟩

/-- Claim C6 witness data: zero candidates returned by the location
search. -/
def c6wenv : MatchEnv := ⟨none, .ok none, true, .ok [], .ok none, false⟩

/-- Claim C5 witness data: the classifier response selecting candidate 41
with high confidence. -/
def c5raw : RawParsed := ⟨.num 41, some "high", some "same address"⟩

/-- Claim C5 witness data: environment for a full successful LLM match. -/
def c5env : MatchEnv := ⟨none, .ok none, true, .ok [⟨41⟩], .ok (some c5raw), false⟩

/-- Claim C10 witness data: the location search itself fails. -/
def c10env : MatchEnv := ⟨none, .ok none, true, .error (), .ok none, false⟩

/-- Claim C10 witness data: classifier API failure after two candidates were
found. -/
def c10env2 : MatchEnv := ⟨none, .ok none, true, .ok [⟨7⟩, ⟨8⟩], .error (), false⟩

-- ========================================================================
-- src/state/review-queue.ts : review queue (claim C7)
-- ========================================================================

/-- A review_queue row, restricted to the columns read by the
non-duplication invariant (external_id, reason, status). -/
structure ReviewQueueRow where
  externalId : String
  reason : String
  status : String
deriving DecidableEq, Repr

/-- Embeds `isInReviewQueue` (src/state/review-queue.ts): true when a
pending row for the key exists. -/
def isInReviewQueue (q : List ReviewQueueRow) (externalId : String) : Bool :=
  q.any (fun r => r.externalId == externalId && r.status == "pending")

/-- The guarded enqueue pattern used at every matcher call site
(src/matching/ticket-matcher.ts): check pending status before inserting;
`queueForReview` inserts a row whose status defaults to pending. -/
def guardedQueueForReview (q : List ReviewQueueRow) (externalId : String)
    (reason : String) : List ReviewQueueRow :=
  if isInReviewQueue q externalId then q
  else q ++ [⟨externalId, reason, "pending"⟩]

/-- Number of pending review-queue rows for a key. -/
def pendingCount (q : List ReviewQueueRow) (externalId : String) : Nat :=
  (q.filter
    (fun r => r.externalId == externalId && r.status == "pending")).length

/-- Claim C7 witness data: a queue holding one pending row for the key. -/
def c7q : List ReviewQueueRow :=
  [⟨"violation|CC24-5|WEEDS|2024-01-02", "no_candidates", "pending"⟩]

-- ========================================================================
-- src/sync/threefold-permits.ts : apiRequest retry loop, and the
-- retry-free ticket client of src/sync/threefold.ts (claim C8)
-- ========================================================================

/-- An HTTP response as seen by the retry loop: the status code and the two
rate-limit headers it reads.  Retry-After is the parsed header in seconds;
the X-RateLimit-Reset header is abstracted as the signed time until reset in
milliseconds, which the source computes as the reset date minus the current
time. -/
structure Resp where
  status : Nat
  retryAfter : Option Nat
  timeUntilResetMs : Option Int
deriving DecidableEq, Repr

/-- Embeds `handleRateLimit` (src/sync/threefold-permits.ts): the wait is
Retry-After seconds when the header is present, else the time until reset
plus a one-second buffer when that is positive and under two minutes, else
60 seconds; the result is capped at the 120-second safety ceiling. -/
def computeWait (r : Resp) : Nat :=
  let base : Int :=
    match r.retryAfter with
    | some ra => (ra : Int) * 1000
    | none =>
      match r.timeUntilResetMs with
      | some t => if 0 < t ∧ t < 120000 then t + 1000 else 60000
      | none => 60000
  (min base 120000).toNat

/-- Outcome of `apiRequest`: a returned response together with the backoff
waits performed before it, the rate-limit hard error, the server-error hard
error, or the unreachable loop fallthrough. -/
inductive GatewayOutcome
  | success (r : Resp) (waits : List Nat)
  | rateLimitError (waits : List Nat)
  | serverError (waits : List Nat)
  | exhausted
deriving DecidableEq, Repr

/-- The retry loop of `apiRequest` (src/sync/threefold-permits.ts).  The
fuel argument is the number of attempts remaining (maxRetries minus the
current attempt index, so the retry condition attempt < maxRetries - 1 is
fuel > 0 after destructuring): status 429 retries after a header-derived
wait, status 500 (exactly) retries after a linearly growing wait of
(attempt+1)*2000 ms, both raising a hard error on the final attempt, and
every other status is returned to the caller immediately. -/
def apiRequestGo (responses : Nat → Resp) : Nat → Nat → List Nat →
    GatewayOutcome
  | 0, _, _ => .exhausted
  | fuel + 1, attempt, waits =>
    let r := responses attempt
    if r.status = 429 then
      if fuel = 0 then .rateLimitError waits
      else apiRequestGo responses fuel (attempt + 1) (waits ++ [computeWait r])
    else if r.status = 500 then
      if fuel = 0 then .serverError waits
      else apiRequestGo responses fuel (attempt + 1)
        (waits ++ [(attempt + 1) * 2000])
    else .success r waits

/-- Embeds `apiRequest` as a function of the scripted response of each
attempt; every call site uses the default maxRetries of 3. -/
def apiRequest (maxRetries : Nat) (responses : Nat → Resp) : GatewayOutcome :=
  apiRequestGo responses maxRetries 0 []

/-- Embeds the control flow of `findTicketByExternalId`
(src/sync/threefold.ts): the ticket-side client performs a single fetch with
no retry logic of any kind; 404 maps to null and any other non-2xx status —
including 429 and every 5xx — raises immediately. -/
def findTicketByExternalId (r : Resp) (body : Option Int) :
    Except String (Option Int) :=
  if r.status = 404 then .ok none
  else if ¬ (200 ≤ r.status ∧ r.status ≤ 299) then
    .error "Failed to find ticket"
  else .ok body

/-- Claim C8 counterexample data: first response HTTP 503, then HTTP 200. -/
def c8script : Nat → Resp :=
  fun i => if i = 0 then ⟨503, none, none⟩ else ⟨200, none, none⟩

/-- Claim C8 witness data: an immediately successful response script. -/
def c8wscript : Nat → Resp := fun _ => ⟨200, none, none⟩

-- ========================================================================
-- List chunking with slice semantics, as used by the batch loops
-- ========================================================================

/-- Splits a list into consecutive chunks of size k (last chunk may be
shorter), with the list length as structural fuel; models the
`for (i = 0; i < n; i += k) slice(i, i + k)` loops of the sync drivers. -/
def chunksOfGo (k : Nat) : Nat → List α → List (List α)
  | 0, _ => []
  | _, [] => []
  | fuel + 1, x :: xs =>
    (x :: xs.take (k - 1)) :: chunksOfGo k fuel (xs.drop (k - 1))

/-- Chunks of size k. -/
def chunksOf (k : Nat) (l : List α) : List (List α) := chunksOfGo k l.length l

-- ========================================================================
-- src/parsers/permits.ts : PermitRecord and generatePermitHash
-- ========================================================================

/-- Embeds `PermitRecord` (src/parsers/permits.ts), restricted to the
fields read by the content hash, the state store and the sync driver;
jobValue is modeled as an integer (the numeric payload is opaque to the
control flow). -/
structure PermitRecord where
  permitNo : String
  status : String
  permitType : String
  permitSubType : String
  applied : Option String
  approved : Option String
  issued : Option String
  finaled : Option String
  expired : Option String
  siteAddress : String
  description : String
  notes : String
  jobValue : Option Int
  apn : String
deriving DecidableEq, Repr

/-- Models Array.prototype.join with a bar separator (null entries render
as the empty string in JS; the caller passes them through getD). -/
def joinBar : List String → String
  | [] => ""
  | [x] => x
  | x :: xs => x ++ "|" ++ joinBar xs

/-- Embeds `generatePermitHash` (src/parsers/permits.ts): the bar-joined
content fields; a change in any of them counts as a content change. -/
def generatePermitHash (record : PermitRecord) : String :=
  joinBar [record.status, record.applied.getD "", record.approved.getD "",
    record.issued.getD "", record.finaled.getD "", record.expired.getD "",
    record.permitType, record.permitSubType, record.siteAddress,
    record.description, record.notes,
    (record.jobValue.map (fun v => toString v)).getD "", record.apn]

-- ========================================================================
-- src/state/tracker.ts : diffPermits, and the permit sort of
-- src/sync/permits-sync.ts
-- ========================================================================

/-- Embeds `PermitStateChange` (src/state/tracker.ts), restricted to the
fields the driver control flow reads (the carried threefold ids are opaque
to the claims below). -/
structure PermitStateChange where
  permitNo : String
  record : PermitRecord
  previousHash : Option String
  newHash : String
  isNew : Bool
deriving DecidableEq, Repr

/-- Models `Map.prototype.set` keyed by permitNo; `diffPermits` and
`upsertPermitState` deduplicate by plain last-occurrence-wins without
sorting. -/
def jsMapSetPermit (m : List PermitRecord) (r : PermitRecord) :
    List PermitRecord :=
  if m.any (fun x => x.permitNo == r.permitNo)
  then m.map (fun x => if x.permitNo == r.permitNo then r else x)
  else m ++ [r]

/-- Embeds the dedup of `diffPermits` / `upsertPermitState`. -/
def dedupPermits (l : List PermitRecord) : List PermitRecord :=
  l.foldl jsMapSetPermit []

/-- Reads the stored content hash for a permit from permit_state (modeled
as an association list from permit_no to content_hash). -/
def lookupPermitHash (state : List (String × String)) (k : String) :
    Option String :=
  (state.find? (fun p => p.1 == k)).map Prod.snd

/-- Embeds `diffPermits` (src/state/tracker.ts): dedup by permit number,
bulk state lookup, then classify by content hash. -/
def diffPermits (state : List (String × String))
    (records : List PermitRecord) : List PermitStateChange :=
  (dedupPermits records).filterMap (fun r =>
    match lookupPermitHash state r.permitNo with
    | none => some ⟨r.permitNo, r, none, generatePermitHash r, true⟩
    | some h =>
      if h ≠ generatePermitHash r
      then some ⟨r.permitNo, r, some h, generatePermitHash r, false⟩
      else none)

/-- Descending permit-number comparator of `sortPermitsLatestFirst`
(src/sync/permits-sync.ts). -/
def permitDesc (a b : PermitRecord) : Prop :=
  strLeB b.permitNo a.permitNo = true

instance : DecidableRel permitDesc :=
  fun a b => inferInstanceAs (Decidable (strLeB b.permitNo a.permitNo = true))

/-- Embeds `sortPermitsLatestFirst`: stable sort descending by permit
number (the permit number embeds the year, so newest first). -/
def sortPermitsLatestFirst (records : List PermitRecord) : List PermitRecord :=
  List.insertionSort permitDesc records

-- ========================================================================
-- The violations sync driver (claims C4, C9)
-- ========================================================================

/-- Oracle outcomes for the database operations of one violations sync run:
an injected failure message for the empty-table check, the diff, and the
(first) state upsert, plus the per-Change outcome of
processViolationChange (none = processed; a failure there is caught and
counted, never re-raised). -/
structure VioSyncEnv where
  emptyCheckErr : Option String
  diffErr : Option String
  changeErr : ViolationStateChange → Option String
  upsertErr : Option String

/-- Observable outcome of one violations sync run: whether the initial-sync
path was taken, whether diffViolations ran, the Changes surfaced to
processViolationChange, the argument lists of the upsertViolationState
calls that completed, the completeSyncLog row (total, changed, errors,
error message) and the overall result (a run-level error is re-raised). -/
structure VioSyncOut where
  initialPath : Bool
  ranDiff : Bool
  surfaced : List ViolationStateChange
  upsertCalls : List (List ViolationRecord)
  completion : Nat × Nat × Nat × Option String
  result : Except String Unit

/-- Embeds `processViolationsSync` (violations sync module): open a
sync_log row, check for initial sync; the empty-table path bulk-populates
state and completes with changed = total; the incremental path diffs,
processes each Change with per-Change error counting, upserts state for the
whole batch and completes with the totals; any run-level exception
completes the log with the counts accumulated so far plus the message and
re-raises the exception to the caller. -/
def processViolationsSync (state : List (String × String)) (env : VioSyncEnv)
    (records : List ViolationRecord) : VioSyncOut :=
  match env.emptyCheckErr with
  | some e => ⟨false, false, [], [], (records.length, 0, 0, some e), .error e⟩
  | none =>
    if state.isEmpty then
      match env.upsertErr with
      | some e =>
        ⟨true, false, [], [], (records.length, 0, 0, some e), .error e⟩
      | none =>
        ⟨true, false, [], [records],
         (records.length, records.length, 0, none), .ok ()⟩
    else
      match env.diffErr with
      | some e =>
        ⟨false, true, [], [], (records.length, 0, 0, some e), .error e⟩
      | none =>
        match env.upsertErr with
        | some e =>
          ⟨false, true, diffViolations state records, [],
           (records.length,
            ((diffViolations state records).filter
              (fun c => (env.changeErr c).isNone)).length,
            ((diffViolations state records).filter
              (fun c => (env.changeErr c).isSome)).length, some e), .error e⟩
        | none =>
          ⟨false, true, diffViolations state records, [records],
           (records.length,
            ((diffViolations state records).filter
              (fun c => (env.changeErr c).isNone)).length,
            ((diffViolations state records).filter
              (fun c => (env.changeErr c).isSome)).length, none), .ok ()⟩

-- ========================================================================
-- The permits sync driver (claims C4, C9)
-- ========================================================================

/-- Oracle outcomes for one permits sync run: the permitUpdatesEnabled
config flag, injected failures for cache initialization, the empty-table
check, the diff and the (first) state upsert, the per-record conversion
outcome inside bulk processing, the bulk-create API response for one call
batch (created and failed counts; an error is caught per batch), and the
per-Change outcome of processPermitChange in incremental mode. -/
structure PermitSyncEnv where
  updatesEnabled : Bool
  initCachesErr : Option String
  emptyCheckErr : Option String
  diffErr : Option String
  convOk : PermitRecord → Bool
  bulkCall : List PermitRecord → Except String (Nat × Nat)
  changeErr : PermitStateChange → Option String
  upsertErr : Option String

/-- Embeds one 100-record API batch of `bulkProcessNewPermits`
(src/sync/permits-sync.ts): convert all records (conversion failures are
counted and filtered out), skip the API call when nothing converted,
otherwise bulk-create and accumulate the response counts; a failed bulk
call counts the whole converted batch as failed and never aborts the loop.
The accumulator is (created, failed, api-call batches sent). -/
def bulkBatchStep (env : PermitSyncEnv)
    (acc : Nat × Nat × List (List PermitRecord))
    (batch : List PermitRecord) : Nat × Nat × List (List PermitRecord) :=
  let ok := batch.filter env.convOk
  let convFails := batch.length - ok.length
  if ok.isEmpty then (acc.1, acc.2.1 + convFails, acc.2.2)
  else
    match env.bulkCall ok with
    | .ok (c, f) => (acc.1 + c, acc.2.1 + convFails + f, acc.2.2 ++ [ok])
    | .error _ => (acc.1, acc.2.1 + convFails + ok.length, acc.2.2 ++ [ok])

/-- Embeds `bulkProcessNewPermits` (src/sync/permits-sync.ts): process the
records in API batches of 100, returning total created, total failed and
the request batches actually sent to bulkCreatePermits. -/
def bulkProcessNewPermits (env : PermitSyncEnv)
    (records : List PermitRecord) : Nat × Nat × List (List PermitRecord) :=
  (chunksOf 100 records).foldl (bulkBatchStep env) (0, 0, [])

/-- Observable outcome of one permits sync run. -/
structure PermitSyncOut where
  ranDiff : Bool
  surfaced : List PermitStateChange
  bulkApiBatches : List (List PermitRecord)
  upsertCalls : List (List PermitRecord)
  completion : Nat × Nat × Nat × Option String
  result : Except String Unit

/-- The initial-sync bulk-import loop of `processPermitsSync`: processing
batches of 1000 records, each bulk-imported in API batches of 100 and then
upserted to local state; an upsert failure aborts to the run-level handler
with the counts accumulated so far. -/
def permitsInitialSync (env : PermitSyncEnv) (sorted : List PermitRecord)
    (total : Nat) : PermitSyncOut :=
  match env.upsertErr with
  | some e =>
    match chunksOf 1000 sorted with
    | [] => ⟨false, [], [], [], (total, 0, 0, none), .ok ()⟩
    | c1 :: _ =>
      ⟨false, [], (bulkProcessNewPermits env c1).2.2, [],
       (total, (bulkProcessNewPermits env c1).1,
        (bulkProcessNewPermits env c1).2.1, some e), .error e⟩
  | none =>
    ⟨false, [],
     ((chunksOf 1000 sorted).foldl
       (fun acc c =>
         (acc.1 + (bulkProcessNewPermits env c).1,
          acc.2.1 + (bulkProcessNewPermits env c).2.1,
          acc.2.2 ++ (bulkProcessNewPermits env c).2.2)) (0, 0, [])).2.2,
     chunksOf 1000 sorted,
     (total,
      ((chunksOf 1000 sorted).foldl
        (fun acc c =>
          (acc.1 + (bulkProcessNewPermits env c).1,
           acc.2.1 + (bulkProcessNewPermits env c).2.1,
           acc.2.2 ++ (bulkProcessNewPermits env c).2.2)) (0, 0, [])).1,
      ((chunksOf 1000 sorted).foldl
        (fun acc c =>
          (acc.1 + (bulkProcessNewPermits env c).1,
           acc.2.1 + (bulkProcessNewPermits env c).2.1,
           acc.2.2 ++ (bulkProcessNewPermits env c).2.2)) (0, 0, [])).2.1,
      none), .ok ()⟩

/-- Embeds `processPermitsSync` (src/sync/permits-sync.ts): sort latest
first, initialize the taxonomy caches, check for initial sync; the initial
path bulk-imports (or, in dry run, only upserts local state), the
incremental path diffs by content hash, short-circuits on zero changes,
skips external calls in dry run, and otherwise processes each Change with
per-Change error counting before the full state upsert; any run-level
exception completes the sync_log with the counts so far plus the message
and re-raises. -/
def processPermitsSync (state : List (String × String))
    (env : PermitSyncEnv) (records : List PermitRecord) : PermitSyncOut :=
  match env.initCachesErr with
  | some e => ⟨false, [], [], [], (records.length, 0, 0, some e), .error e⟩
  | none =>
  match env.emptyCheckErr with
  | some e => ⟨false, [], [], [], (records.length, 0, 0, some e), .error e⟩
  | none =>
  if state.isEmpty then
    if ! env.updatesEnabled then
      match env.upsertErr with
      | some e => ⟨false, [], [], [], (records.length, 0, 0, some e), .error e⟩
      | none =>
        ⟨false, [], [], [sortPermitsLatestFirst records],
         ((sortPermitsLatestFirst records).length,
          (sortPermitsLatestFirst records).length, 0, none), .ok ()⟩
    else
      permitsInitialSync env (sortPermitsLatestFirst records)
        (sortPermitsLatestFirst records).length
  else
    match env.diffErr with
    | some e => ⟨true, [], [], [], (records.length, 0, 0, some e), .error e⟩
    | none =>
      if (diffPermits state (sortPermitsLatestFirst records)).isEmpty then
        match env.upsertErr with
        | some e =>
          ⟨true, [], [], [], (records.length, 0, 0, some e), .error e⟩
        | none =>
          ⟨true, [], [], [sortPermitsLatestFirst records],
           ((sortPermitsLatestFirst records).length, 0, 0, none), .ok ()⟩
      else if ! env.updatesEnabled then
        match env.upsertErr with
        | some e =>
          ⟨true, [], [], [], (records.length, 0, 0, some e), .error e⟩
        | none =>
          ⟨true, [], [], [sortPermitsLatestFirst records],
           ((sortPermitsLatestFirst records).length,
            (diffPermits state (sortPermitsLatestFirst records)).length, 0,
            none), .ok ()⟩
      else
        match env.upsertErr with
        | some e =>
          ⟨true, diffPermits state (sortPermitsLatestFirst records), [], [],
           (records.length,
            ((diffPermits state (sortPermitsLatestFirst records)).filter
              (fun c => (env.changeErr c).isNone)).length,
            ((diffPermits state (sortPermitsLatestFirst records)).filter
              (fun c => (env.changeErr c).isSome)).length, some e), .error e⟩
        | none =>
          ⟨true, diffPermits state (sortPermitsLatestFirst records), [],
           [sortPermitsLatestFirst records],
           ((sortPermitsLatestFirst records).length,
            ((diffPermits state (sortPermitsLatestFirst records)).filter
              (fun c => (env.changeErr c).isNone)).length,
            ((diffPermits state (sortPermitsLatestFirst records)).filter
              (fun c => (env.changeErr c).isSome)).length, none), .ok ()⟩

/-- Claim C4 witness data: one violation record. -/
def c4vrec : ViolationRecord :=
  ⟨"violation|CC24-7|NOISE|2024-04-01", "a7", "CC24-7", "NOISE", "OPEN",
    "2024-04-01", "7 Oak St"⟩

/-- Claim C4 witness data: one permit record. -/
def c4prec : PermitRecord :=
  ⟨"B25-00001", "APPLIED", "Building", "", none, none, none, none, none,
    "10 Main St", "", "", none, ""⟩

/-- Claim C4 witness data: a violations sync environment with no injected
failures. -/
def c4venv : VioSyncEnv := ⟨none, none, fun _ => none, none⟩

/-- Claim C4 witness data: a permits sync environment with updates enabled
and no injected failures. -/
def c4penv : PermitSyncEnv :=
  ⟨true, none, none, none, fun _ => true, fun l => .ok (l.length, 0),
   fun _ => none, none⟩

/-- Claim C9 witness data: a violations sync environment whose empty-table
check raises. -/
def c9venv : VioSyncEnv := ⟨some "db down", none, fun _ => none, none⟩

/-- Claim C9 witness data: a permits sync environment with no injected
failures. -/
def c9penv : PermitSyncEnv :=
  ⟨true, none, none, none, fun _ => true, fun l => .ok (l.length, 0),
   fun _ => none, none⟩

-- ===== THEOREMS =====

-- ========================================================================
-- Generic string lemmas
-- ========================================================================

theorem data_append (a b : String) : (a ++ b).data = a.data ++ b.data := by
  cases a; cases b; rfl

theorem mk_data (s : String) : String.mk s.data = s := by
  cases s; rfl

theorem mk_eq_empty_iff (l : List Char) : String.mk l = "" ↔ l = [] := by
  constructor
  · intro h
    exact congrArg String.data h
  · intro h
    subst h
    rfl

theorem splitOnChar_ne_nil (c : Char) (l : List Char) : splitOnChar c l ≠ [] := by
  cases l with
  | nil => simp [splitOnChar]
  | cons x xs =>
    simp only [splitOnChar]
    split
    · simp
    · split <;> simp

theorem splitOnChar_not_mem (c : Char) (l : List Char) (h : c ∉ l) :
    splitOnChar c l = [l] := by
  induction l with
  | nil => rfl
  | cons x xs ih =>
    have hx : x ≠ c := fun hxc => h (hxc ▸ List.mem_cons_self x xs)
    have hxs : c ∉ xs := fun hc => h (List.mem_cons_of_mem x hc)
    simp only [splitOnChar, if_neg hx, ih hxs]

theorem splitOnChar_append (c : Char) (l₁ l₂ : List Char) (h : c ∉ l₁) :
    splitOnChar c (l₁ ++ c :: l₂) = l₁ :: splitOnChar c l₂ := by
  induction l₁ with
  | nil => simp [splitOnChar]
  | cons x xs ih =>
    have hx : x ≠ c := fun hxc => h (hxc ▸ List.mem_cons_self x xs)
    have hxs : c ∉ xs := fun hc => h (List.mem_cons_of_mem x hc)
    simp only [List.cons_append, splitOnChar, if_neg hx, List.append_eq]
    rw [ih hxs]

theorem jsTrim_eq_empty_iff (s : String) :
    jsTrim s = "" ↔ ∀ x ∈ s.data, x.isWhitespace := by
  unfold jsTrim
  rw [mk_eq_empty_iff, List.reverse_eq_nil_iff, List.dropWhile_eq_nil_iff]
  constructor
  · intro h x hx
    by_cases hdrop : x ∈ s.data.dropWhile Char.isWhitespace
    · exact h x (List.mem_reverse.mpr hdrop)
    · have hsplit := List.takeWhile_append_dropWhile (p := Char.isWhitespace)
        (l := s.data)
      rw [← hsplit] at hx
      rcases List.mem_append.mp hx with htake | hd
      · exact List.mem_takeWhile_imp htake
      · exact absurd hd hdrop
  · intro h x hx
    have : x ∈ s.data.dropWhile Char.isWhitespace := List.mem_reverse.mp hx
    exact h x (List.dropWhile_subset _ this)

-- ========================================================================
-- Claim C3
-- ========================================================================

/-- Claim C3 counterexample: the claim says unparseable date strings never
normalize to the original unparsed literal, but `normalizeDate` returns its
input unchanged whenever the slash split does not have exactly three parts.
The unparseable input "not-a-date" is returned verbatim (while the permit
normalizer maps the same input to null). -/
theorem c3_counterexample :
    normalizeDate "not-a-date" = "not-a-date" ∧
    "not-a-date" ≠ "" ∧
    normalizePermitDate (some "not-a-date") = none := by
  refine ⟨by decide, by decide, by decide⟩

theorem dateParts_data (m d y : String) :
    (m ++ "/" ++ d ++ "/" ++ y).data = m.data ++ '/' :: (d.data ++ '/' :: y.data) := by
  rw [data_append, data_append, data_append]
  rw [show ("/" : String).data = ['/'] from rfl]
  simp [List.append_assoc]

theorem mk_dateParts (m d y : String) :
    String.mk (m.data ++ '/' :: (d.data ++ '/' :: y.data)) = m ++ "/" ++ d ++ "/" ++ y := by
  rw [← dateParts_data, mk_data]

theorem not_mem_dateParts {c : Char} {m d y : String}
    (hm : c ∉ m.data) (hd : c ∉ d.data) (hy : c ∉ y.data) (hc : c ≠ '/') :
    c ∉ (m ++ "/" ++ d ++ "/" ++ y).data := by
  rw [dateParts_data]
  intro hmem
  rcases List.mem_append.mp hmem with h1 | h2
  · exact hm h1
  · rcases List.mem_cons.mp h2 with h3 | h4
    · exact hc h3
    · rcases List.mem_append.mp h4 with h5 | h6
      · exact hd h5
      · rcases List.mem_cons.mp h6 with h7 | h8
        · exact hc h7
        · exact hy h8

theorem dateParts_ne_empty (m d y : String) : m ++ "/" ++ d ++ "/" ++ y ≠ "" := by
  intro h
  have h2 := congrArg String.data h
  rw [dateParts_data] at h2
  simp at h2

theorem jsSplit_dateParts (m d y : String)
    (hm : '/' ∉ m.data) (hd : '/' ∉ d.data) (hy : '/' ∉ y.data) :
    jsSplit (m ++ "/" ++ d ++ "/" ++ y) '/' = [m, d, y] := by
  unfold jsSplit
  rw [dateParts_data, splitOnChar_append _ _ _ hm, splitOnChar_append _ _ _ hd,
    splitOnChar_not_mem _ _ hy]
  show [String.mk m.data, String.mk d.data, String.mk y.data] = [m, d, y]
  rw [mk_data, mk_data, mk_data]

/-- Claim C3 (amended): `normalizePermitDate` maps null, empty and
whitespace-only input to null, maps every unparseable input (slash split of
the pre-space part not exactly three fragments) to null — never to the
original literal — and maps M/D/YYYY input to the canonical YYYY-MM-DD
midnight timestamp; `normalizeDate` maps the empty string to the empty
string and M/D/YYYY input (with or without a trailing time-of-day) to
canonical YYYY-MM-DD, but returns non-empty input whose slash split does
not have exactly three parts unchanged — i.e. the original literal. -/
theorem c3_date_normalization (m d y rest s : String)
    (hm : '/' ∉ m.data ∧ ' ' ∉ m.data)
    (hd : '/' ∉ d.data ∧ ' ' ∉ d.data)
    (hy : '/' ∉ y.data ∧ ' ' ∉ y.data) :
    normalizeDate "" = "" ∧
    normalizeDate (m ++ "/" ++ d ++ "/" ++ y) =
      y ++ "-" ++ padStart2 m ++ "-" ++ padStart2 d ∧
    normalizeDate (m ++ "/" ++ d ++ "/" ++ y ++ " " ++ rest) =
      y ++ "-" ++ padStart2 m ++ "-" ++ padStart2 d ∧
    (s ≠ "" → (jsSplit (headOrEmpty (jsSplit s ' ')) '/').length ≠ 3 →
      normalizeDate s = s) ∧
    normalizePermitDate none = none ∧
    (jsTrim s = "" → normalizePermitDate (some s) = none) ∧
    ((jsSplit (headOrEmpty (jsSplit s ' ')) '/').length ≠ 3 →
      normalizePermitDate (some s) = none) ∧
    normalizePermitDate (some (m ++ "/" ++ d ++ "/" ++ y)) =
      some (y ++ "-" ++ padStart2 m ++ "-" ++ padStart2 d ++ "T00:00:00.000Z") := by
  have hspace : (' ' : Char) ∉ (m ++ "/" ++ d ++ "/" ++ y).data :=
    not_mem_dateParts hm.2 hd.2 hy.2 (by decide)
  have hne : m ++ "/" ++ d ++ "/" ++ y ≠ "" := dateParts_ne_empty m d y
  have hsplitSpace : jsSplit (m ++ "/" ++ d ++ "/" ++ y) ' ' =
      [m ++ "/" ++ d ++ "/" ++ y] := by
    unfold jsSplit
    rw [splitOnChar_not_mem _ _ hspace]
    show [String.mk (m ++ "/" ++ d ++ "/" ++ y).data] = _
    rw [mk_data]
  have hsplitSlash : jsSplit (m ++ "/" ++ d ++ "/" ++ y) '/' = [m, d, y] :=
    jsSplit_dateParts m d y hm.1 hd.1 hy.1
  refine ⟨rfl, ?_, ?_, ?_, rfl, ?_, ?_, ?_⟩
  · unfold normalizeDate
    rw [if_neg hne, hsplitSpace]
    show (match jsSplit (m ++ "/" ++ d ++ "/" ++ y) '/' with
      | [month, day, year] => year ++ "-" ++ padStart2 month ++ "-" ++ padStart2 day
      | _ => m ++ "/" ++ d ++ "/" ++ y) = _
    rw [hsplitSlash]
  · have hdataT : (m ++ "/" ++ d ++ "/" ++ y ++ " " ++ rest).data =
        (m ++ "/" ++ d ++ "/" ++ y).data ++ ' ' :: rest.data := by
      rw [data_append, data_append]
      rw [show (" " : String).data = [' '] from rfl]
      simp [List.append_assoc]
    have hneT : m ++ "/" ++ d ++ "/" ++ y ++ " " ++ rest ≠ "" := by
      intro h
      have h2 := congrArg String.data h
      rw [hdataT] at h2
      simp at h2
    have hsplitT : jsSplit (m ++ "/" ++ d ++ "/" ++ y ++ " " ++ rest) ' ' =
        (m ++ "/" ++ d ++ "/" ++ y) :: (splitOnChar ' ' rest.data).map String.mk := by
      unfold jsSplit
      rw [hdataT, splitOnChar_append _ _ _ hspace]
      show String.mk (m ++ "/" ++ d ++ "/" ++ y).data ::
        (splitOnChar ' ' rest.data).map String.mk = _
      rw [mk_data]
    unfold normalizeDate
    rw [if_neg hneT, hsplitT]
    show (match jsSplit (m ++ "/" ++ d ++ "/" ++ y) '/' with
      | [month, day, year] => year ++ "-" ++ padStart2 month ++ "-" ++ padStart2 day
      | _ => m ++ "/" ++ d ++ "/" ++ y ++ " " ++ rest) = _
    rw [hsplitSlash]
  · intro hsne hlen
    unfold normalizeDate
    rw [if_neg hsne]
    rcases hl : jsSplit (headOrEmpty (jsSplit s ' ')) '/' with _ | ⟨a, _ | ⟨b, _ | ⟨c, _ | ⟨e, t⟩⟩⟩⟩ <;>
      simp_all
  · intro htrim
    simp only [normalizePermitDate]
    rw [if_pos (Or.inr htrim)]
  · intro hlen
    simp only [normalizePermitDate]
    by_cases he : s = "" ∨ jsTrim s = ""
    · rw [if_pos he]
    · rw [if_neg he]
      rcases hl : jsSplit (headOrEmpty (jsSplit s ' ')) '/' with _ | ⟨a, _ | ⟨b, _ | ⟨c, _ | ⟨e, t⟩⟩⟩⟩ <;>
        simp_all
  · have htrim : jsTrim (m ++ "/" ++ d ++ "/" ++ y) ≠ "" := by
      rw [Ne, jsTrim_eq_empty_iff]
      intro hall
      have hmem : ('/' : Char) ∈ (m ++ "/" ++ d ++ "/" ++ y).data := by
        rw [dateParts_data]
        exact List.mem_append.mpr (Or.inr (List.mem_cons_self _ _))
      have := hall '/' hmem
      simp [Char.isWhitespace] at this
    simp only [normalizePermitDate]
    rw [if_neg (not_or.mpr ⟨hne, htrim⟩), hsplitSpace]
    show (match jsSplit (m ++ "/" ++ d ++ "/" ++ y) '/' with
      | [month, day, year] =>
        some (year ++ "-" ++ padStart2 month ++ "-" ++ padStart2 day ++ "T00:00:00.000Z")
      | _ => none) = _
    rw [hsplitSlash]

/-- Claim C3 witness: the amended theorem applied at the concrete parseable
input "8/27/2024" and at the concrete unparseable permit input "8/27". -/
theorem c3_date_normalization_witness :
    normalizeDate ("8" ++ "/" ++ "27" ++ "/" ++ "2024") =
      "2024" ++ "-" ++ padStart2 "8" ++ "-" ++ padStart2 "27" ∧
    normalizePermitDate (some "8/27") = none := by
  refine ⟨(c3_date_normalization "8" "27" "2024" "x" "8/27"
    (by decide) (by decide) (by decide)).2.1, ?_⟩
  exact (c3_date_normalization "8" "27" "2024" "x" "8/27"
    (by decide) (by decide) (by decide)).2.2.2.2.2.2.1 (by decide)

-- ========================================================================
-- Order lemmas for the lexicographic comparator
-- ========================================================================

theorem lexLtB_irrefl : ∀ l : List Char, lexLtB l l = false := by
  intro l
  induction l with
  | nil => rfl
  | cons x xs ih =>
    simp only [lexLtB, if_neg (lt_irrefl x)]
    exact ih

theorem lexLtB_asymm : ∀ (a b : List Char), lexLtB a b = true → lexLtB b a = false := by
  intro a
  induction a with
  | nil =>
    intro b h
    cases b with
    | nil => simp [lexLtB] at h
    | cons y ys => rfl
  | cons x xs ih =>
    intro b h
    cases b with
    | nil => simp [lexLtB] at h
    | cons y ys =>
      simp only [lexLtB] at h ⊢
      rcases lt_trichotomy x y with hxy | hxy | hxy
      · rw [if_neg (lt_asymm hxy), if_pos hxy]
      · subst hxy
        rw [if_neg (lt_irrefl x), if_neg (lt_irrefl x)] at h ⊢
        exact ih ys h
      · rw [if_neg (lt_asymm hxy), if_pos hxy] at h
        exact absurd h (by simp)

theorem lexLtB_connex : ∀ (a b : List Char),
    lexLtB a b = false → lexLtB b a = false → a = b := by
  intro a
  induction a with
  | nil =>
    intro b h1 _
    cases b with
    | nil => rfl
    | cons y ys => simp [lexLtB] at h1
  | cons x xs ih =>
    intro b h1 h2
    cases b with
    | nil => simp [lexLtB] at h2
    | cons y ys =>
      simp only [lexLtB] at h1 h2
      rcases lt_trichotomy x y with hxy | hxy | hxy
      · rw [if_pos hxy] at h1
        exact absurd h1 (by simp)
      · subst hxy
        rw [if_neg (lt_irrefl x), if_neg (lt_irrefl x)] at h1 h2
        rw [ih ys h1 h2]
      · rw [if_pos hxy] at h2
        exact absurd h2 (by simp)

theorem lexLtB_trans : ∀ (a b c : List Char),
    lexLtB a b = true → lexLtB b c = true → lexLtB a c = true := by
  intro a
  induction a with
  | nil =>
    intro b c h1 h2
    cases b with
    | nil => simp [lexLtB] at h1
    | cons y ys =>
      cases c with
      | nil => simp [lexLtB] at h2
      | cons z zs => rfl
  | cons x xs ih =>
    intro b c h1 h2
    cases b with
    | nil => simp [lexLtB] at h1
    | cons y ys =>
      cases c with
      | nil => simp [lexLtB] at h2
      | cons z zs =>
        simp only [lexLtB] at h1 h2 ⊢
        rcases lt_trichotomy x y with hxy | hxy | hxy
        · rcases lt_trichotomy y z with hyz | hyz | hyz
          · rw [if_pos (lt_trans hxy hyz)]
          · subst hyz
            rw [if_pos hxy]
          · rw [if_neg (lt_asymm hyz), if_pos hyz] at h2
            exact absurd h2 (by simp)
        · subst hxy
          rcases lt_trichotomy x z with hxz | hxz | hxz
          · rw [if_pos hxz]
          · subst hxz
            rw [if_neg (lt_irrefl x), if_neg (lt_irrefl x)] at h1 h2 ⊢
            exact ih ys zs h1 h2
          · rw [if_neg (lt_asymm hxz), if_pos hxz] at h2
            exact absurd h2 (by simp)
        · rw [if_neg (lt_asymm hxy), if_pos hxy] at h1
          exact absurd h1 (by simp)

theorem strLtB_asymm {a b : String} (h : strLtB a b = true) : strLtB b a = false :=
  lexLtB_asymm a.data b.data h

theorem strLtB_trans {a b c : String} (h1 : strLtB a b = true)
    (h2 : strLtB b c = true) : strLtB a c = true :=
  lexLtB_trans a.data b.data c.data h1 h2

theorem strLtB_connex {a b : String} (h1 : strLtB a b = false)
    (h2 : strLtB b a = false) : a = b := by
  have hd := lexLtB_connex a.data b.data h1 h2
  cases a
  cases b
  exact congrArg String.mk hd

theorem strLeB_total (a b : String) : strLeB a b = true ∨ strLeB b a = true := by
  unfold strLeB
  cases hab : strLtB b a with
  | false => exact Or.inl (by simp [hab])
  | true => exact Or.inr (by simp [strLtB_asymm hab])

theorem strLeB_antisymm {a b : String} (h1 : strLeB a b = true)
    (h2 : strLeB b a = true) : a = b := by
  unfold strLeB at h1 h2
  have h1f : strLtB b a = false := by
    cases h : strLtB b a
    · rfl
    · rw [h] at h1
      exact absurd h1 (by simp)
  have h2f : strLtB a b = false := by
    cases h : strLtB a b
    · rfl
    · rw [h] at h2
      exact absurd h2 (by simp)
  exact strLtB_connex h2f h1f

theorem strLeB_trans {a b c : String} (h1 : strLeB a b = true)
    (h2 : strLeB b c = true) : strLeB a c = true := by
  unfold strLeB at h1 h2 ⊢
  have h1f : strLtB b a = false := by
    cases h : strLtB b a
    · rfl
    · rw [h] at h1
      exact absurd h1 (by simp)
  have h2f : strLtB c b = false := by
    cases h : strLtB c b
    · rfl
    · rw [h] at h2
      exact absurd h2 (by simp)
  cases hv : strLtB c a with
  | false => rfl
  | true =>
    exfalso
    cases hab : strLtB a b with
    | false =>
      have heq : a = b := strLtB_connex hab h1f
      rw [heq] at hv
      rw [h2f] at hv
      exact Bool.noConfusion hv
    | true =>
      have hcb : strLtB c b = true := strLtB_trans hv hab
      rw [h2f] at hcb
      exact Bool.noConfusion hcb

-- ========================================================================
-- Totality and transitivity of the tracker comparator
-- ========================================================================

theorem strLtB_irrefl (a : String) : strLtB a a = false :=
  lexLtB_irrefl a.data

instance : IsTotal ViolationRecord violLe := ⟨by
  intro a b
  unfold violLe violLeB
  by_cases h : a.externalId = b.externalId
  · rw [if_pos h, if_pos h.symm]
    exact strLeB_total _ _
  · rw [if_neg h, if_neg (Ne.symm h)]
    cases ht : strLtB a.externalId b.externalId with
    | true => exact Or.inl rfl
    | false =>
      cases ht2 : strLtB b.externalId a.externalId with
      | true => exact Or.inr rfl
      | false => exact absurd (strLtB_connex ht ht2) h⟩

instance : IsTrans ViolationRecord violLe := ⟨by
  intro a b c hab hbc
  unfold violLe violLeB at hab hbc ⊢
  by_cases h1 : a.externalId = b.externalId <;>
    by_cases h2 : b.externalId = c.externalId
  · have h3 : a.externalId = c.externalId := h1.trans h2
    rw [if_pos h1] at hab
    rw [if_pos h2] at hbc
    rw [if_pos h3]
    exact strLeB_trans hab hbc
  · have h3 : a.externalId ≠ c.externalId := by
      rw [h1]; exact h2
    rw [if_neg h2] at hbc
    rw [if_neg h3, h1]
    exact hbc
  · have h3 : a.externalId ≠ c.externalId := by
      rw [← h2]; exact h1
    rw [if_neg h1] at hab
    rw [if_neg h3, ← h2]
    exact hab
  · rw [if_neg h1] at hab
    rw [if_neg h2] at hbc
    have h4 : strLtB a.externalId c.externalId = true := strLtB_trans hab hbc
    have h3 : a.externalId ≠ c.externalId := by
      intro he
      rw [he, strLtB_irrefl] at h4
      exact Bool.noConfusion h4
    rw [if_neg h3]
    exact h4⟩

-- ========================================================================
-- Uniqueness of sorted permutations under antisymmetry on the elements
-- ========================================================================

theorem sorted_perm_eq {α : Type} {r : α → α → Prop} :
    ∀ {l₁ l₂ : List α}, l₁.Perm l₂ → l₁.Pairwise r → l₂.Pairwise r →
      (∀ a ∈ l₁, ∀ b ∈ l₁, r a b → r b a → a = b) → l₁ = l₂ := by
  intro l₁
  induction l₁ with
  | nil =>
    intro l₂ hp _ _ _
    exact (hp.symm.eq_nil).symm
  | cons a t ih =>
    intro l₂ hp hs₁ hs₂ hanti
    cases l₂ with
    | nil => exact absurd hp.eq_nil (by simp)
    | cons b t₂ =>
      have hab : a = b := by
        by_cases heq : a = b
        · exact heq
        · have hbmem : b ∈ a :: t := hp.mem_iff.mpr (List.mem_cons_self b t₂)
          have hamem : a ∈ b :: t₂ := hp.mem_iff.mp (List.mem_cons_self a t)
          have hbt : b ∈ t := by
            rcases List.mem_cons.mp hbmem with h | h
            · exact absurd h.symm heq
            · exact h
          have hat : a ∈ t₂ := by
            rcases List.mem_cons.mp hamem with h | h
            · exact absurd h heq
            · exact h
          have hr1 : r a b := (List.pairwise_cons.mp hs₁).1 b hbt
          have hr2 : r b a := (List.pairwise_cons.mp hs₂).1 a hat
          exact hanti a (List.mem_cons_self a t) b hbmem hr1 hr2
      subst hab
      have hp2 : t.Perm t₂ := hp.cons_inv
      have ht : t = t₂ := ih hp2 (List.pairwise_cons.mp hs₁).2
        (List.pairwise_cons.mp hs₂).2
        (fun x hx y hy => hanti x (List.mem_cons_of_mem a hx) y
          (List.mem_cons_of_mem a hy))
      rw [ht]

-- ========================================================================
-- Claim C1
-- ========================================================================

theorem dedupViolations_perm_invariant (l₁ l₂ : List ViolationRecord)
    (hperm : l₁.Perm l₂)
    (hkey : ∀ a ∈ l₁, ∀ b ∈ l₁,
      a.externalId = b.externalId → a.violationStatus = b.violationStatus →
        a = b) :
    dedupViolations l₁ = dedupViolations l₂ := by
  have hsorteq : sortViolations l₁ = sortViolations l₂ := by
    apply sorted_perm_eq (r := violLe)
    · exact (List.perm_insertionSort violLe l₁).trans
        (hperm.trans (List.perm_insertionSort violLe l₂).symm)
    · exact List.sorted_insertionSort violLe l₁
    · exact List.sorted_insertionSort violLe l₂
    · intro a ha b hb hab hba
      have ha2 : a ∈ l₁ := (List.perm_insertionSort violLe l₁).mem_iff.mp ha
      have hb2 : b ∈ l₁ := (List.perm_insertionSort violLe l₁).mem_iff.mp hb
      unfold violLe violLeB at hab hba
      by_cases hid : a.externalId = b.externalId
      · rw [if_pos hid] at hab
        rw [if_pos hid.symm] at hba
        exact hkey a ha2 b hb2 hid (strLeB_antisymm hab hba)
      · rw [if_neg hid] at hab
        rw [if_neg (Ne.symm hid)] at hba
        rw [strLtB_asymm hab] at hba
        exact Bool.noConfusion hba
  unfold dedupViolations
  rw [hsorteq]

/-- Claim C1 counterexample: the claim quantifies over every batch and every
permutation, but when two distinct records share both the external id and
the violation status (here differing only in siteAddress), the sort key
ties, the stable sort keeps the input order, and last-wins dedup selects a
different winning record for the two orders; the emitted Changes then carry
different records as well. -/
theorem c1_counterexample :
    ([c1r1, c1r2].Perm [c1r2, c1r1]) ∧
    c1r1.externalId = c1r2.externalId ∧
    c1r1.violationStatus = c1r2.violationStatus ∧
    dedupViolations [c1r1, c1r2] ≠ dedupViolations [c1r2, c1r1] ∧
    diffViolations [] [c1r1, c1r2] ≠ diffViolations [] [c1r2, c1r1] := by
  refine ⟨by decide, by decide, by decide, by decide, by decide⟩

/-- Claim C1 (amended): for every batch in which records agreeing on both
the identity key (externalId) and the tracked signature (violationStatus)
are equal — in particular any batch whose duplicates are exact duplicates —
`diffViolations` and `upsertViolationState` select the same winning record
per identity key and emit the same Changes for every permutation of the
batch: the batch is sorted ascending by (externalId, violationStatus) and
the last record per externalId after that sort wins.  Moreover every
emitted Change carries exactly a record that the state upsert writes. -/
theorem c1_dedup_determinism (state : List (String × String))
    (l₁ l₂ : List ViolationRecord) (hperm : l₁.Perm l₂)
    (hkey : ∀ a ∈ l₁, ∀ b ∈ l₁,
      a.externalId = b.externalId → a.violationStatus = b.violationStatus →
        a = b) :
    diffViolations state l₁ = diffViolations state l₂ ∧
    upsertViolationRows l₁ = upsertViolationRows l₂ ∧
    ∀ c ∈ diffViolations state l₁, c.record ∈ upsertViolationRows l₁ := by
  have h := dedupViolations_perm_invariant l₁ l₂ hperm hkey
  refine ⟨?_, ?_, ?_⟩
  · unfold diffViolations
    rw [h]
  · unfold upsertViolationRows
    rw [h]
  · intro c hc
    unfold diffViolations at hc
    unfold upsertViolationRows
    rcases List.mem_filterMap.mp hc with ⟨r, hr, hmap⟩
    split at hmap
    · simp only [Option.some_inj] at hmap
      rw [← hmap]
      exact hr
    · split at hmap
      · simp only [Option.some_inj] at hmap
        rw [← hmap]
        exact hr
      · exact Option.noConfusion hmap

/-- Claim C1 witness: the amended theorem applied to a concrete two-record
batch with distinct keys and its swap. -/
theorem c1_dedup_determinism_witness :
    diffViolations [] [c1r1, c1w2] = diffViolations [] [c1w2, c1r1] ∧
    upsertViolationRows [c1r1, c1w2] = upsertViolationRows [c1w2, c1r1] ∧
    ∀ c ∈ diffViolations [] [c1r1, c1w2],
      c.record ∈ upsertViolationRows [c1r1, c1w2] :=
  c1_dedup_determinism [] [c1r1, c1w2] [c1w2, c1r1] (by decide) (by decide)

-- ========================================================================
-- Claim C2
-- ========================================================================

theorem head?_append_left {α : Type} {l₁ l₂ : List α} (h : l₁ ≠ []) :
    (l₁ ++ l₂).head? = l₁.head? := by
  cases l₁ with
  | nil => exact absurd rfl h
  | cons a l => rfl

theorem data_head_append (a b : String) (h : a.data ≠ []) :
    (a ++ b).data.head? = a.data.head? := by
  rw [data_append]
  exact head?_append_left h

theorem closeText_ne_statusText (r : String) (prev : Option String)
    (new : String) (rec : ViolationRecord) :
    "Automatically closed: " ++ r ≠ statusComment prev new rec := by
  intro he
  have h1 : ("Automatically closed: " ++ r).data.head? = some 'A' := by
    rw [data_head_append _ _ (by decide)]
    decide
  have h2 : (statusComment prev new rec).data.head? = some 'T' := by
    unfold statusComment
    rw [data_head_append _ _ (by decide)]
    decide
  rw [he, h2] at h1
  exact absurd h1 (by decide)

/-- Claim C2: with ticket updates enabled and a resolved ticket, a status
transition to COMPLIED or UNFOUNDED issues exactly the close-ticket action
pair (workflow-step change plus audit comment) and never the status-update
comment; any other transition issues exactly the status-update comment and
never a workflow-step change; and any Change with isNew = true issues no
external action of any kind (the matcher is not even invoked). -/
theorem c2_close_comment_partition (closeStepId : Int) (m : MatchResult)
    (ch : ViolationStateChange) (t : Int) (ht : m.ticketId = some t)
    (ht0 : t ≠ 0) (hnotnew : ch.isNew = false) :
    (∀ m2 : MatchResult, ∀ ch2 : ViolationStateChange, ch2.isNew = true →
      processViolationChange true closeStepId m2 ch2 = (false, [])) ∧
    (ch.newStatus ∈ CLOSE_STATUSES →
      processViolationChange true closeStepId m ch =
        (true, [TicketAction.moveStep t closeStepId,
          TicketAction.comment t ("Automatically closed: " ++
            closeReason ch.newStatus ch.previousStatus)]) ∧
      TicketAction.comment t
          (statusComment ch.previousStatus ch.newStatus ch.record) ∉
        (processViolationChange true closeStepId m ch).2) ∧
    (ch.newStatus ∉ CLOSE_STATUSES →
      processViolationChange true closeStepId m ch =
        (true, [TicketAction.comment t
          (statusComment ch.previousStatus ch.newStatus ch.record)]) ∧
      ∀ t2 s2, TicketAction.moveStep t2 s2 ∉
        (processViolationChange true closeStepId m ch).2) := by
  refine ⟨?_, ?_, ?_⟩
  · intro m2 ch2 hnew
    unfold processViolationChange
    rw [if_pos hnew]
  · intro hclose
    have heq : processViolationChange true closeStepId m ch =
        (true, closeTicket closeStepId t
          (closeReason ch.newStatus ch.previousStatus)) := by
      unfold processViolationChange
      rw [if_neg (by rw [hnotnew]; exact Bool.false_ne_true), ht]
      simp only [Bool.not_true, Bool.false_eq_true, if_false]
      rw [if_neg ht0, if_pos hclose]
    refine ⟨by rw [heq]; rfl, ?_⟩
    rw [heq]
    intro hmem
    rcases List.mem_cons.mp hmem with h | h
    · exact TicketAction.noConfusion h
    · rcases List.mem_cons.mp h with h2 | h2
      · injection h2 with hta htb
        exact closeText_ne_statusText _ _ _ _ htb.symm
      · exact absurd h2 (List.not_mem_nil _)
  · intro hcomment
    have heq : processViolationChange true closeStepId m ch =
        (true, [TicketAction.comment t
          (statusComment ch.previousStatus ch.newStatus ch.record)]) := by
      unfold processViolationChange
      rw [if_neg (by rw [hnotnew]; exact Bool.false_ne_true), ht]
      simp only [Bool.not_true, Bool.false_eq_true, if_false]
      rw [if_neg ht0, if_neg hcomment]
    refine ⟨heq, ?_⟩
    intro t2 s2 hmem
    rw [heq] at hmem
    rcases List.mem_cons.mp hmem with h | h
    · exact TicketAction.noConfusion h
    · exact absurd h (List.not_mem_nil _)

/-- Claim C2 witness: the theorem applied to a concrete OPEN to COMPLIED
transition with a resolved ticket. -/
theorem c2_close_comment_partition_witness :
    processViolationChange true 77 c2m c2ch =
      (true, [TicketAction.moveStep 5 77,
        TicketAction.comment 5 ("Automatically closed: " ++
          closeReason "COMPLIED" (some "OPEN"))]) := by
  have h := (c2_close_comment_partition 77 c2m c2ch 5 rfl
    (by decide) rfl).2.1 (by decide)
  exact h.1

-- ========================================================================
-- Matcher stage-reduction lemmas
-- ========================================================================

theorem matchVTT_nocache {env : MatchEnv} {ext : String}
    (hc : env.cached = none) :
    matchViolationToTicket env ext = matchUncached env ext := by
  unfold matchViolationToTicket
  rw [hc]

theorem matchUncached_miss {env : MatchEnv} {ext : String}
    (hx : env.extLookup = .ok none ∨ env.extLookup = .error ()) :
    matchUncached env ext = matchViaLLM env ext := by
  rcases hx with h | h <;> (unfold matchUncached; rw [h])

theorem matchVTT_llm {env : MatchEnv} {ext : String}
    (hc : env.cached = none)
    (hx : env.extLookup = .ok none ∨ env.extLookup = .error ()) :
    matchViolationToTicket env ext = matchViaLLM env ext :=
  (matchVTT_nocache hc).trans (matchUncached_miss hx)

theorem matchViaLLM_llmResult {env : MatchEnv} {ext : String}
    {cands : List CandidateTicket} {raw : Option RawParsed}
    {lr : LLMMatchResult}
    (hl : env.llmMatchingEnabled = true) (hf : env.locFetch = .ok cands)
    (hne : cands ≠ []) (hr : env.llmResp = .ok raw)
    (hp : parseMatchingResponse raw (cands.map (·.ticketId)) = some lr) :
    matchViaLLM env ext =
      (if lr.ticketId.getD 0 = 0 ∨ lr.confidence = Confidence.low then
        ⟨⟨lr.ticketId, "llm", some lr.confidence, some lr.reasoning, true⟩,
         MatchEffect.logAttempt ⟨ext, "llm", cands.length, lr.ticketId,
             some lr.confidence, some lr.reasoning⟩ ::
           queueIfAbsent env.pending ext cands.length "low_confidence"⟩
      else
        match lr.ticketId with
        | some t =>
          ⟨⟨some t, "llm", some lr.confidence, some lr.reasoning, false⟩,
           [MatchEffect.logAttempt ⟨ext, "llm", cands.length, lr.ticketId,
               some lr.confidence, some lr.reasoning⟩,
            MatchEffect.setCache ext t "llm" (some lr.confidence),
            MatchEffect.stamp t ext]⟩
        | none =>
          ⟨⟨none, "llm", some lr.confidence, some lr.reasoning, true⟩,
           MatchEffect.logAttempt ⟨ext, "llm", cands.length, lr.ticketId,
               some lr.confidence, some lr.reasoning⟩ ::
             queueIfAbsent env.pending ext cands.length "low_confidence"⟩) := by
  have hcne : cands.isEmpty = false := by
    cases cands with
    | nil => exact absurd rfl hne
    | cons a l => rfl
  simp only [matchViaLLM, hl, Bool.not_true, Bool.false_eq_true, if_false,
    hf, hcne, hr, hp]

theorem matchViaLLM_noCandidates {env : MatchEnv} {ext : String}
    (hl : env.llmMatchingEnabled = true) (hf : env.locFetch = .ok []) :
    matchViaLLM env ext =
      ⟨⟨none, "llm", none, none, true⟩,
       queueIfAbsent env.pending ext 0 "no_candidates" ++
         [.logAttempt ⟨ext, "llm", 0, none, none, none⟩]⟩ := by
  simp only [matchViaLLM, hl, Bool.not_true, Bool.false_eq_true, if_false,
    hf, List.isEmpty_nil, if_true]

theorem matchViaLLM_locFail {env : MatchEnv} {ext : String}
    (hl : env.llmMatchingEnabled = true) (hf : env.locFetch = .error ()) :
    matchViaLLM env ext = ⟨⟨none, "none", none, none, false⟩, []⟩ := by
  simp only [matchViaLLM, hl, Bool.not_true, Bool.false_eq_true, if_false, hf]

theorem matchViaLLM_apiFail {env : MatchEnv} {ext : String}
    {cands : List CandidateTicket}
    (hl : env.llmMatchingEnabled = true) (hf : env.locFetch = .ok cands)
    (hne : cands ≠ []) (hr : env.llmResp = .error ()) :
    matchViaLLM env ext =
      ⟨⟨none, "llm", none, none, true⟩,
       queueIfAbsent env.pending ext cands.length "api_error"⟩ := by
  have hcne : cands.isEmpty = false := by
    cases cands with
    | nil => exact absurd rfl hne
    | cons a l => rfl
  simp only [matchViaLLM, hl, Bool.not_true, Bool.false_eq_true, if_false,
    hf, hcne, hr]

theorem matchViaLLM_parseFail {env : MatchEnv} {ext : String}
    {cands : List CandidateTicket} {raw : Option RawParsed}
    (hl : env.llmMatchingEnabled = true) (hf : env.locFetch = .ok cands)
    (hne : cands ≠ []) (hr : env.llmResp = .ok raw)
    (hp : parseMatchingResponse raw (cands.map (·.ticketId)) = none) :
    matchViaLLM env ext =
      ⟨⟨none, "llm", none, none, true⟩,
       queueIfAbsent env.pending ext cands.length "llm_parse_error" ++
         [.logAttempt ⟨ext, "llm", cands.length, none, none,
           some "parse_error"⟩]⟩ := by
  have hcne : cands.isEmpty = false := by
    cases cands with
    | nil => exact absurd rfl hne
    | cons a l => rfl
  simp only [matchViaLLM, hl, Bool.not_true, Bool.false_eq_true, if_false,
    hf, hcne, hr, hp]

theorem parseMatchingResponse_mem {raw : Option RawParsed} {ids : List Int}
    {lr : LLMMatchResult} {t : Int}
    (hp : parseMatchingResponse raw ids = some lr)
    (ht : lr.ticketId = some t) : t ∈ ids := by
  cases raw with
  | none => exact Option.noConfusion hp
  | some p =>
    simp only [parseMatchingResponse] at hp
    cases hpt : p.ticketId with
    | absent =>
      rw [hpt] at hp
      exact Option.noConfusion hp
    | nullv =>
      rw [hpt] at hp
      simp only [Option.some_inj] at hp
      rw [← hp] at ht
      exact Option.noConfusion ht
    | num n =>
      rw [hpt] at hp
      have hp2 : (if n ∈ ids then
          some (⟨some n, validateConfidence p.confidence,
            p.reasoning.getD ""⟩ : LLMMatchResult) else none) = some lr := hp
      by_cases hmem : n ∈ ids
      · rw [if_pos hmem] at hp2
        simp only [Option.some_inj] at hp2
        rw [← hp2] at ht
        simp only [Option.some_inj] at ht
        rw [← ht]
        exact hmem
      · rw [if_neg hmem] at hp2
        exact Option.noConfusion hp2

theorem countP_log_queueIfAbsent (p : Bool) (k : String) (n : Nat)
    (r : String) : (queueIfAbsent p k n r).countP isLogAttempt = 0 := by
  cases p <;> rfl

-- ========================================================================
-- Claim C5
-- ========================================================================

/-- Claim C5: in the heuristic matching stage, a parsed classifier result
with a null ticketId or low confidence is never written to the match cache
and always produces needsReview = true; a cache write only happens for a
non-null (and nonzero) ticket with non-low confidence, with needsReview =
false, and the chosen ticket is always a member of the candidate set that
was presented; an out-of-set numeric id makes the response unparseable. -/
theorem c5_confidence_gating (env : MatchEnv) (externalId : String)
    (cands : List CandidateTicket) (raw : Option RawParsed)
    (lr : LLMMatchResult)
    (hc : env.cached = none)
    (hx : env.extLookup = .ok none ∨ env.extLookup = .error ())
    (hl : env.llmMatchingEnabled = true)
    (hf : env.locFetch = .ok cands)
    (hne : cands ≠ [])
    (hr : env.llmResp = .ok raw)
    (hp : parseMatchingResponse raw (cands.map (·.ticketId)) = some lr) :
    ((lr.ticketId = none ∨ lr.confidence = Confidence.low) →
      (matchViolationToTicket env externalId).result.needsReview = true ∧
      ∀ e ∈ (matchViolationToTicket env externalId).effects,
        isSetCache e = false) ∧
    (∀ t method conf,
      MatchEffect.setCache externalId t method conf ∈
        (matchViolationToTicket env externalId).effects →
      method = "llm" ∧ lr.ticketId = some t ∧ t ≠ 0 ∧
        lr.confidence ≠ Confidence.low ∧ t ∈ cands.map (·.ticketId) ∧
        (matchViolationToTicket env externalId).result.needsReview = false) ∧
    (∀ p : RawParsed, ∀ n : Int, p.ticketId = JsonId.num n →
      n ∉ cands.map (·.ticketId) →
      parseMatchingResponse (some p) (cands.map (·.ticketId)) = none) := by
  have heq := (@matchVTT_llm env externalId hc hx).trans
    (@matchViaLLM_llmResult env externalId cands raw lr hl hf hne hr hp)
  refine ⟨?_, ?_, ?_⟩
  · intro hlow
    have hcond : lr.ticketId.getD 0 = 0 ∨ lr.confidence = Confidence.low := by
      rcases hlow with h | h
      · exact Or.inl (by rw [h]; rfl)
      · exact Or.inr h
    rw [heq, if_pos hcond]
    refine ⟨rfl, ?_⟩
    intro e he
    rcases List.mem_cons.mp he with h | h
    · rw [h]; rfl
    · cases hpending : env.pending with
      | true => simp [queueIfAbsent, hpending] at h
      | false =>
        simp only [queueIfAbsent, hpending, Bool.false_eq_true, if_false,
          List.mem_singleton] at h
        rw [h]; rfl
  · intro t method conf hmem
    rw [heq] at hmem
    by_cases hcond : lr.ticketId.getD 0 = 0 ∨ lr.confidence = Confidence.low
    · rw [if_pos hcond] at hmem
      exfalso
      rcases List.mem_cons.mp hmem with h | h
      · exact MatchEffect.noConfusion h
      · cases hpending : env.pending with
        | true => simp [queueIfAbsent, hpending] at h
        | false => simp [queueIfAbsent, hpending] at h
    · have hres : (matchViolationToTicket env externalId).result.needsReview =
          false := by
        rw [heq, if_neg hcond]
        push_neg at hcond
        cases hti : lr.ticketId with
        | none =>
          rw [hti] at hcond
          exact absurd rfl hcond.1
        | some t0 => rfl
      rw [if_neg hcond] at hmem
      push_neg at hcond
      obtain ⟨hg0, hconf⟩ := hcond
      cases hti : lr.ticketId with
      | none =>
        rw [hti] at hg0
        exact absurd rfl hg0
      | some t0 =>
        rw [hti] at hmem
        have ht0 : t0 ≠ 0 := by
          rw [hti] at hg0
          simpa using hg0
        rcases List.mem_cons.mp hmem with h | h
        · exact MatchEffect.noConfusion h
        · rcases List.mem_cons.mp h with h2 | h2
          · injection h2 with he1 he2 he3 he4
            refine ⟨he3, ?_, ?_, hconf, ?_, hres⟩
            · rw [he2]
            · rw [he2]
              exact ht0
            · rw [he2]
              exact parseMatchingResponse_mem hp hti
          · rcases List.mem_cons.mp h2 with h3 | h3
            · exact MatchEffect.noConfusion h3
            · exact absurd h3 (List.not_mem_nil _)
  · intro p n hpt hn
    show parseMatchingResponse (some p) (cands.map (·.ticketId)) = none
    simp only [parseMatchingResponse]
    rw [hpt]
    exact if_neg hn

/-- Claim C5 witness: the theorem applied to a successful high-confidence
match of candidate 41. -/
theorem c5_confidence_gating_witness :
    (matchViolationToTicket c5env "k5").result.needsReview = false ∧
    (41 : Int) ∈ ([(⟨41⟩ : CandidateTicket)]).map (·.ticketId) := by
  have h := (c5_confidence_gating c5env "k5" [⟨41⟩] (some c5raw)
    ⟨some 41, Confidence.high, "same address"⟩ rfl (Or.inl rfl) rfl rfl
    (by decide) rfl rfl).2.1 41 "llm" (some Confidence.high) (by decide)
  exact ⟨h.2.2.2.2.2, h.2.2.2.2.1⟩

-- ========================================================================
-- Claim C6
-- ========================================================================

/-- Claim C6 counterexample: a classifier API failure is a heuristic
matching attempt (matching enabled, one candidate fetched, classifier
invoked) yet the matcher writes no match-log row at all on that path — it
only enqueues the violation for review — contradicting the claim that every
attempt results in exactly one match-log row. -/
theorem c6_counterexample :
    c6env.llmMatchingEnabled = true ∧
    (matchViolationToTicket c6env "violation|CC24-3|TRASH|2024-01-05").effects =
      [MatchEffect.queueReview "violation|CC24-3|TRASH|2024-01-05" 1
        "api_error"] ∧
    ((matchViolationToTicket c6env
        "violation|CC24-3|TRASH|2024-01-05").effects.countP isLogAttempt) = 0 := by
  refine ⟨rfl, rfl, rfl⟩

/-- Claim C6 (amended): every heuristic matching attempt that obtains a
location-search result writes exactly one match-log row when there are no
candidates, when the classifier response fails to parse, and when a parsed
result is obtained (low or accepted confidence alike); a classifier API
failure however writes no match-log row: it only enqueues the violation for
review. -/
theorem c6_match_log (env : MatchEnv) (ext : String)
    (cands : List CandidateTicket) (raw : Option RawParsed)
    (hc : env.cached = none)
    (hx : env.extLookup = .ok none ∨ env.extLookup = .error ())
    (hl : env.llmMatchingEnabled = true) :
    (env.locFetch = .ok [] →
      ((matchViolationToTicket env ext).effects.countP isLogAttempt) = 1) ∧
    (env.locFetch = .ok cands → cands ≠ [] → env.llmResp = .ok raw →
      ((matchViolationToTicket env ext).effects.countP isLogAttempt) = 1) ∧
    (env.locFetch = .ok cands → cands ≠ [] → env.llmResp = .error () →
      ((matchViolationToTicket env ext).effects.countP isLogAttempt) = 0) := by
  have hbase := @matchVTT_llm env ext hc hx
  refine ⟨?_, ?_, ?_⟩
  · intro hf
    rw [hbase, matchViaLLM_noCandidates hl hf]
    simp [List.countP_append, countP_log_queueIfAbsent, List.countP_cons,
      isLogAttempt]
  · intro hf hne hr
    cases hp : parseMatchingResponse raw (cands.map (·.ticketId)) with
    | none =>
      rw [hbase, matchViaLLM_parseFail hl hf hne hr hp]
      simp [List.countP_append, countP_log_queueIfAbsent, List.countP_cons,
        isLogAttempt]
    | some lr =>
      rw [hbase, matchViaLLM_llmResult hl hf hne hr hp]
      by_cases hcond : lr.ticketId.getD 0 = 0 ∨ lr.confidence = Confidence.low
      · rw [if_pos hcond]
        simp [List.countP_cons, countP_log_queueIfAbsent, isLogAttempt]
      · rw [if_neg hcond]
        push_neg at hcond
        cases hti : lr.ticketId with
        | none =>
          rw [hti] at hcond
          exact absurd rfl hcond.1
        | some t => rfl
  · intro hf hne hr
    rw [hbase, matchViaLLM_apiFail hl hf hne hr]
    exact countP_log_queueIfAbsent env.pending ext cands.length "api_error"

/-- Claim C6 witness: the amended theorem applied to the zero-candidate
path, which logs exactly one row. -/
theorem c6_match_log_witness :
    ((matchViolationToTicket c6wenv "k6").effects.countP isLogAttempt) = 1 :=
  (c6_match_log c6wenv "k6" [] none rfl (Or.inl rfl) rfl).1 rfl

-- ========================================================================
-- Claim C10
-- ========================================================================

/-- Claim C10: when the location-based candidate search itself fails, the
matcher returns ticketId null, method none, needsReview false, performing no
database write at all (no review-queue row, no match-log row) — the failure
is silently deferred to the next sync cycle; a classifier API failure
instead returns needsReview true and enqueues the violation for review with
reason api_error (when no pending entry exists), still without any
match-log row. -/
theorem c10_location_failure (env : MatchEnv) (ext : String)
    (cands : List CandidateTicket)
    (hc : env.cached = none)
    (hx : env.extLookup = .ok none ∨ env.extLookup = .error ())
    (hl : env.llmMatchingEnabled = true) :
    (env.locFetch = .error () →
      matchViolationToTicket env ext =
        ⟨⟨none, "none", none, none, false⟩, []⟩) ∧
    (env.locFetch = .ok cands → cands ≠ [] → env.llmResp = .error () →
      (matchViolationToTicket env ext).result.needsReview = true ∧
      (matchViolationToTicket env ext).effects =
        queueIfAbsent env.pending ext cands.length "api_error" ∧
      (env.pending = false →
        MatchEffect.queueReview ext cands.length "api_error" ∈
          (matchViolationToTicket env ext).effects) ∧
      ((matchViolationToTicket env ext).effects.countP isLogAttempt) = 0) := by
  have hbase := @matchVTT_llm env ext hc hx
  refine ⟨?_, ?_⟩
  · intro hf
    rw [hbase]
    exact matchViaLLM_locFail hl hf
  · intro hf hne hr
    rw [hbase, matchViaLLM_apiFail hl hf hne hr]
    refine ⟨rfl, rfl, ?_, ?_⟩
    · intro hpending
      simp [queueIfAbsent, hpending]
    · exact countP_log_queueIfAbsent env.pending ext cands.length "api_error"

/-- Claim C10 witness: the theorem applied to a concrete failing location
search and to a concrete classifier failure with two candidates. -/
theorem c10_location_failure_witness :
    matchViolationToTicket c10env "k10" =
      ⟨⟨none, "none", none, none, false⟩, []⟩ ∧
    (matchViolationToTicket c10env2 "k10b").result.needsReview = true := by
  refine ⟨(c10_location_failure c10env "k10" [] rfl (Or.inl rfl) rfl).1 rfl, ?_⟩
  exact ((c10_location_failure c10env2 "k10b" [⟨7⟩, ⟨8⟩] rfl (Or.inl rfl)
    rfl).2 rfl (by decide) rfl).1

-- ========================================================================
-- Claim C7
-- ========================================================================

theorem isInReviewQueue_iff (q : List ReviewQueueRow) (k : String) :
    isInReviewQueue q k = true ↔ 0 < pendingCount q k := by
  unfold isInReviewQueue pendingCount
  rw [List.any_eq_true, List.length_pos]
  constructor
  · rintro ⟨r, hr, hp⟩
    intro hnil
    have : r ∈ List.filter
        (fun r => r.externalId == k && r.status == "pending") q :=
      List.mem_filter.mpr ⟨hr, hp⟩
    rw [hnil] at this
    exact List.not_mem_nil r this
  · intro hne
    rcases List.exists_mem_of_ne_nil _ hne with ⟨r, hr⟩
    rcases List.mem_filter.mp hr with ⟨hmem, hp⟩
    exact ⟨r, hmem, hp⟩

theorem guardedQueueForReview_noop {q : List ReviewQueueRow} {k : String}
    (h : 0 < pendingCount q k) (r : String) :
    guardedQueueForReview q k r = q := by
  unfold guardedQueueForReview
  rw [if_pos ((isInReviewQueue_iff q k).mpr h)]

theorem guardedQueueForReview_first {q : List ReviewQueueRow} {k : String}
    (h : pendingCount q k = 0) (r : String) :
    pendingCount (guardedQueueForReview q k r) k = 1 := by
  have hnot : ¬ isInReviewQueue q k = true := by
    rw [isInReviewQueue_iff, h]
    exact lt_irrefl 0
  unfold guardedQueueForReview
  rw [if_neg hnot]
  unfold pendingCount at h ⊢
  rw [List.filter_append, List.length_append, h]
  simp

/-- Claim C7: enqueuing a key while a prior entry for it is still pending
inserts no new row, and after any sequence of guarded enqueue attempts for
the same key starting from a queue with exactly one pending row for it,
exactly one pending row for the key exists; a first enqueue on a queue with
no pending row creates exactly one. -/
theorem c7_review_queue_dedup (q : List ReviewQueueRow) (k : String)
    (reasons : List String) (h1 : pendingCount q k = 1) :
    pendingCount
      (reasons.foldl (fun acc r => guardedQueueForReview acc k r) q) k = 1 ∧
    (∀ q2 : List ReviewQueueRow, 0 < pendingCount q2 k → ∀ r,
      guardedQueueForReview q2 k r = q2) ∧
    (∀ q0 : List ReviewQueueRow, pendingCount q0 k = 0 → ∀ r,
      pendingCount (guardedQueueForReview q0 k r) k = 1) := by
  refine ⟨?_, fun q2 h r => guardedQueueForReview_noop h r,
    fun q0 h r => guardedQueueForReview_first h r⟩
  induction reasons generalizing q with
  | nil => exact h1
  | cons r rs ih =>
    rw [List.foldl_cons,
      guardedQueueForReview_noop (by rw [h1]; exact Nat.one_pos) r]
    exact ih q h1

/-- Claim C7 witness: the theorem applied to a queue with one pending row
and two further enqueue attempts for the same key. -/
theorem c7_review_queue_dedup_witness :
    pendingCount
      ((["llm_parse_error", "low_confidence"]).foldl
        (fun acc r =>
          guardedQueueForReview acc "violation|CC24-5|WEEDS|2024-01-02" r)
        c7q) "violation|CC24-5|WEEDS|2024-01-02" = 1 :=
  (c7_review_queue_dedup c7q "violation|CC24-5|WEEDS|2024-01-02"
    ["llm_parse_error", "low_confidence"] (by decide)).1

-- ========================================================================
-- Claim C8
-- ========================================================================

theorem computeWait_le (r : Resp) : computeWait r ≤ 120000 := by
  unfold computeWait
  have h : (min (match r.retryAfter with
      | some ra => (ra : Int) * 1000
      | none =>
        match r.timeUntilResetMs with
        | some t => if 0 < t ∧ t < 120000 then t + 1000 else 60000
        | none => 60000) 120000 : Int) ≤ 120000 := min_le_right _ _
  exact Int.toNat_le.mpr h

theorem apiRequestGo_success {responses : Nat → Resp} :
    ∀ (fuel attempt : Nat) (waits : List Nat) (r : Resp) (ws : List Nat),
      apiRequestGo responses fuel attempt waits = .success r ws →
      r.status ≠ 429 ∧ r.status ≠ 500 ∧
      ((∀ w ∈ waits, w ≤ 120000) → attempt + fuel ≤ 60 →
        ∀ w ∈ ws, w ≤ 120000) := by
  intro fuel
  induction fuel with
  | zero =>
    intro attempt waits r ws h
    simp [apiRequestGo] at h
  | succ f ih =>
    intro attempt waits r ws h
    simp only [apiRequestGo] at h
    by_cases h429 : (responses attempt).status = 429
    · rw [if_pos h429] at h
      by_cases hf : f = 0
      · rw [if_pos hf] at h
        exact GatewayOutcome.noConfusion h
      · rw [if_neg hf] at h
        obtain ⟨h1, h2, h3⟩ := ih (attempt + 1) _ r ws h
        refine ⟨h1, h2, ?_⟩
        intro hw hb w hmem
        refine h3 ?_ (by omega) w hmem
        intro w2 hw2
        rcases List.mem_append.mp hw2 with hx | hx
        · exact hw w2 hx
        · rw [List.mem_singleton.mp hx]
          exact computeWait_le _
    · rw [if_neg h429] at h
      by_cases h500 : (responses attempt).status = 500
      · rw [if_pos h500] at h
        by_cases hf : f = 0
        · rw [if_pos hf] at h
          exact GatewayOutcome.noConfusion h
        · rw [if_neg hf] at h
          obtain ⟨h1, h2, h3⟩ := ih (attempt + 1) _ r ws h
          refine ⟨h1, h2, ?_⟩
          intro hw hb w hmem
          refine h3 ?_ (by omega) w hmem
          intro w2 hw2
          rcases List.mem_append.mp hw2 with hx | hx
          · exact hw w2 hx
          · rw [List.mem_singleton.mp hx]
            omega
      · rw [if_neg h500] at h
        injection h with hr hws
        subst hr
        subst hws
        exact ⟨h429, h500, fun hw _ => hw⟩

/-- Claim C8 counterexample: the claim says HTTP 5xx server errors are
retried with backoff, for every call through the External Gateway; but the
permit-side `apiRequest` retries only status 500 exactly, so an HTTP 503 is
returned immediately after one attempt with no backoff even though the next
scripted response would have succeeded, and the ticket-side client has no
retry logic at all: a 429 raises a hard error on the first attempt. -/
theorem c8_counterexample :
    apiRequest 3 c8script = .success ⟨503, none, none⟩ [] ∧
    (500 ≤ (503 : Nat) ∧ (503 : Nat) ≤ 599) ∧
    c8script 1 = ⟨200, none, none⟩ ∧
    findTicketByExternalId ⟨429, none, none⟩ none =
      .error "Failed to find ticket" := by
  refine ⟨rfl, by decide, rfl, rfl⟩

/-- Claim C8 (amended): the permit-API client retries HTTP 429 with a wait
computed from the Retry-After / X-RateLimit-Reset headers, every wait capped
by the 120-second safety ceiling, up to 3 attempts before raising a hard
error; it retries exactly HTTP 500 with linearly increasing backoff (2s then
4s) up to 3 attempts before raising; any other status — including other 5xx
statuses — is returned to the caller immediately without retry, and the
ticket-side client performs no retries at all. -/
theorem c8_gateway_retries (responses : Nat → Resp) :
    (∀ r ws, apiRequest 3 responses = .success r ws →
      r.status ≠ 429 ∧ r.status ≠ 500 ∧ ∀ w ∈ ws, w ≤ 120000) ∧
    ((responses 0).status = 429 → (responses 1).status ≠ 429 →
      (responses 1).status ≠ 500 →
      apiRequest 3 responses =
        .success (responses 1) [computeWait (responses 0)] ∧
      computeWait (responses 0) ≤ 120000) ∧
    ((responses 0).status = 429 → (responses 1).status = 429 →
      (responses 2).status = 429 →
      apiRequest 3 responses = .rateLimitError
        [computeWait (responses 0), computeWait (responses 1)]) ∧
    ((responses 0).status = 500 → (responses 1).status = 500 →
      (responses 2).status ≠ 429 → (responses 2).status ≠ 500 →
      apiRequest 3 responses = .success (responses 2) [2000, 4000]) ∧
    ((responses 0).status = 500 → (responses 1).status = 500 →
      (responses 2).status = 500 →
      apiRequest 3 responses = .serverError [2000, 4000]) ∧
    ((responses 0).status ≠ 429 → (responses 0).status ≠ 500 →
      apiRequest 3 responses = .success (responses 0) []) := by
  refine ⟨?_, ?_, ?_, ?_, ?_, ?_⟩
  · intro r ws h
    obtain ⟨h1, h2, h3⟩ := apiRequestGo_success 3 0 [] r ws h
    exact ⟨h1, h2, h3 (by intro w hw; exact absurd hw (List.not_mem_nil w))
      (by omega)⟩
  · intro h0 h1 h2
    refine ⟨?_, computeWait_le _⟩
    simp [apiRequest, apiRequestGo, h0, h1, h2]
  · intro h0 h1 h2
    simp [apiRequest, apiRequestGo, h0, h1, h2]
  · intro h0 h1 h2a h2b
    simp [apiRequest, apiRequestGo, h0, h1, h2a, h2b]
  · intro h0 h1 h2
    simp [apiRequest, apiRequestGo, h0, h1, h2]
  · intro h0a h0b
    simp [apiRequest, apiRequestGo, h0a, h0b]

/-- Claim C8 witness: the amended theorem applied to an immediately
successful script. -/
theorem c8_gateway_retries_witness :
    apiRequest 3 c8wscript = .success (c8wscript 0) [] :=
  (c8_gateway_retries c8wscript).2.2.2.2.2 (by decide) (by decide)

-- ========================================================================
-- Chunking and fold lemmas for the bulk-import loops
-- ========================================================================

theorem chunksOfGo_flatten {α : Type} (k : Nat) :
    ∀ (fuel : Nat) (l : List α), l.length ≤ fuel →
      (chunksOfGo k fuel l).flatten = l := by
  intro fuel
  induction fuel with
  | zero =>
    intro l hl
    cases l with
    | nil => rfl
    | cons x xs => simp at hl
  | succ f ih =>
    intro l hl
    cases l with
    | nil => rfl
    | cons x xs =>
      rw [show chunksOfGo k (f + 1) (x :: xs) =
        (x :: xs.take (k - 1)) :: chunksOfGo k f (xs.drop (k - 1)) from rfl]
      rw [List.flatten_cons]
      have hlen : (xs.drop (k - 1)).length ≤ f := by
        rw [List.length_drop]
        simp only [List.length_cons] at hl
        omega
      rw [ih _ hlen, List.cons_append, List.take_append_drop]

theorem chunksOf_flatten {α : Type} (k : Nat) (l : List α) :
    (chunksOf k l).flatten = l :=
  chunksOfGo_flatten k l.length l le_rfl

theorem chunksOfGo_mem_length {α : Type} {k : Nat} (hk : 1 ≤ k) :
    ∀ (fuel : Nat) (l c : List α), c ∈ chunksOfGo k fuel l → c.length ≤ k := by
  intro fuel
  induction fuel with
  | zero =>
    intro l c hc
    simp [chunksOfGo] at hc
  | succ f ih =>
    intro l c hc
    cases l with
    | nil => simp [chunksOfGo] at hc
    | cons x xs =>
      rw [show chunksOfGo k (f + 1) (x :: xs) =
        (x :: xs.take (k - 1)) :: chunksOfGo k f (xs.drop (k - 1)) from rfl] at hc
      rcases List.mem_cons.mp hc with h | h
      · rw [h]
        simp only [List.length_cons, List.length_take]
        omega
      · exact ih _ c h

theorem chunksOf_mem_length {α : Type} {k : Nat} (hk : 1 ≤ k)
    {l c : List α} (hc : c ∈ chunksOf k l) : c.length ≤ k :=
  chunksOfGo_mem_length hk l.length l c hc

theorem flatten_filter_ne_empty {α : Type} (L : List (List α)) :
    (L.filter (fun l => ! l.isEmpty)).flatten = L.flatten := by
  induction L with
  | nil => rfl
  | cons c cs ih =>
    cases c with
    | nil => simpa [List.filter_cons] using ih
    | cons a l => simp [List.filter_cons, ih]

theorem flatten_map_filter {α : Type} (p : α → Bool) (L : List (List α)) :
    (L.map (fun l => l.filter p)).flatten = L.flatten.filter p := by
  induction L with
  | nil => rfl
  | cons c cs ih =>
    rw [List.map_cons, List.flatten_cons, ih, List.flatten_cons,
      List.filter_append]

theorem flatten_map_flatten {α β : Type} (f : β → List (List α)) (L : List β) :
    ((L.map f).flatten).flatten = (L.map (fun b => (f b).flatten)).flatten := by
  induction L with
  | nil => rfl
  | cons c cs ih =>
    rw [List.map_cons, List.flatten_cons, List.flatten_append, ih,
      List.map_cons, List.flatten_cons]

theorem bulkBatchStep_batches (env : PermitSyncEnv)
    (acc : Nat × Nat × List (List PermitRecord)) (batch : List PermitRecord) :
    (bulkBatchStep env acc batch).2.2 =
      acc.2.2 ++ (if (batch.filter env.convOk).isEmpty then []
        else [batch.filter env.convOk]) := by
  simp only [bulkBatchStep]
  by_cases h : (batch.filter env.convOk).isEmpty
  · rw [if_pos h, if_pos h]
    simp
  · rw [if_neg h, if_neg h]
    cases hb : env.bulkCall (batch.filter env.convOk) with
    | ok cf =>
      cases cf with
      | mk c f => rfl
    | error e => rfl

theorem bulk_foldl_batches (env : PermitSyncEnv) :
    ∀ (L : List (List PermitRecord))
      (acc : Nat × Nat × List (List PermitRecord)),
      (L.foldl (bulkBatchStep env) acc).2.2 =
        acc.2.2 ++ ((L.map (fun b => b.filter env.convOk)).filter
          (fun l => ! l.isEmpty)) := by
  intro L
  induction L with
  | nil =>
    intro acc
    simp
  | cons c cs ih =>
    intro acc
    rw [List.foldl_cons, ih, bulkBatchStep_batches]
    by_cases h : (c.filter env.convOk).isEmpty
    · simp [List.filter_cons, h]
    · simp [List.filter_cons, h, List.append_assoc]

theorem bulkProcessNewPermits_batches (env : PermitSyncEnv)
    (records : List PermitRecord) :
    (bulkProcessNewPermits env records).2.2 =
      ((chunksOf 100 records).map (fun b => b.filter env.convOk)).filter
        (fun l => ! l.isEmpty) := by
  unfold bulkProcessNewPermits
  rw [bulk_foldl_batches]
  rfl

theorem bulkProcessNewPermits_batches_flatten (env : PermitSyncEnv)
    (records : List PermitRecord) :
    ((bulkProcessNewPermits env records).2.2).flatten =
      records.filter env.convOk := by
  rw [bulkProcessNewPermits_batches, flatten_filter_ne_empty, flatten_map_filter,
    chunksOf_flatten]

theorem permits_fold_batches (env : PermitSyncEnv) :
    ∀ (L : List (List PermitRecord))
      (acc : Nat × Nat × List (List PermitRecord)),
      (L.foldl (fun acc c =>
        (acc.1 + (bulkProcessNewPermits env c).1,
         acc.2.1 + (bulkProcessNewPermits env c).2.1,
         acc.2.2 ++ (bulkProcessNewPermits env c).2.2)) acc).2.2 =
      acc.2.2 ++
        (L.map (fun c => (bulkProcessNewPermits env c).2.2)).flatten := by
  intro L
  induction L with
  | nil =>
    intro acc
    simp
  | cons c cs ih =>
    intro acc
    rw [List.foldl_cons, ih, List.map_cons, List.flatten_cons,
      List.append_assoc]

theorem permitsInitialSync_batches (env : PermitSyncEnv)
    (sorted : List PermitRecord) (total : Nat)
    (hpu : env.upsertErr = none) :
    ((permitsInitialSync env sorted total).bulkApiBatches).flatten =
      sorted.filter env.convOk ∧
    ∀ b ∈ (permitsInitialSync env sorted total).bulkApiBatches,
      b.length ≤ 100 ∧ b ≠ [] := by
  have hbatches : (permitsInitialSync env sorted total).bulkApiBatches =
      ((chunksOf 1000 sorted).map
        (fun c => (bulkProcessNewPermits env c).2.2)).flatten := by
    simp only [permitsInitialSync, hpu]
    rw [permits_fold_batches, List.nil_append]
  constructor
  · rw [hbatches, flatten_map_flatten]
    have hmap : (chunksOf 1000 sorted).map
        (fun c => ((bulkProcessNewPermits env c).2.2).flatten) =
        (chunksOf 1000 sorted).map (fun c => c.filter env.convOk) :=
      List.map_congr_left
        (fun c _ => bulkProcessNewPermits_batches_flatten env c)
    rw [hmap, flatten_map_filter, chunksOf_flatten]
  · intro b hb
    rw [hbatches] at hb
    rcases List.mem_flatten.mp hb with ⟨bl, hbl, hbbl⟩
    rcases List.mem_map.mp hbl with ⟨c, hc, hfc⟩
    rw [← hfc, bulkProcessNewPermits_batches] at hbbl
    rcases List.mem_filter.mp hbbl with ⟨hmem2, hne2⟩
    rcases List.mem_map.mp hmem2 with ⟨c2, hc2, hfc2⟩
    constructor
    · rw [← hfc2]
      calc (c2.filter env.convOk).length
          ≤ c2.length := List.length_filter_le _ _
        _ ≤ 100 := chunksOf_mem_length (by omega) hc2
    · intro hbnil
      rw [hbnil] at hne2
      simp at hne2

-- ========================================================================
-- Claim C4
-- ========================================================================

/-- Claim C4: when the relevant state table is empty at the start of a sync
run, the violations driver takes the initial-sync path exclusively — the
diff never runs, no Change is surfaced to the per-Change action layer, and
the whole batch is bulk-upserted into state — and the permits driver
likewise surfaces no Change, never diffs, and (with updates enabled)
bulk-creates exactly the convertible records in the external system in API
batches of at most 100 records each. -/
theorem c4_initial_sync_exclusivity (state pstate : List (String × String))
    (venv : VioSyncEnv) (penv : PermitSyncEnv)
    (vrecords : List ViolationRecord) (precords : List PermitRecord)
    (hv : state = []) (hp : pstate = [])
    (hve : venv.emptyCheckErr = none) (hvu : venv.upsertErr = none)
    (hp1 : penv.initCachesErr = none) (hp2 : penv.emptyCheckErr = none)
    (hpu : penv.upsertErr = none) (hen : penv.updatesEnabled = true) :
    (processViolationsSync state venv vrecords).initialPath = true ∧
    (processViolationsSync state venv vrecords).ranDiff = false ∧
    (processViolationsSync state venv vrecords).surfaced = [] ∧
    (processViolationsSync state venv vrecords).upsertCalls = [vrecords] ∧
    (processPermitsSync pstate penv precords).ranDiff = false ∧
    (processPermitsSync pstate penv precords).surfaced = [] ∧
    ((processPermitsSync pstate penv precords).bulkApiBatches).flatten =
      (sortPermitsLatestFirst precords).filter penv.convOk ∧
    ∀ b ∈ (processPermitsSync pstate penv precords).bulkApiBatches,
      b.length ≤ 100 ∧ b ≠ [] := by
  subst hv
  subst hp
  have hvio : processViolationsSync [] venv vrecords =
      ⟨true, false, [], [vrecords],
       (vrecords.length, vrecords.length, 0, none), .ok ()⟩ := by
    simp [processViolationsSync, hve, hvu]
  have hper : processPermitsSync [] penv precords =
      permitsInitialSync penv (sortPermitsLatestFirst precords)
        (sortPermitsLatestFirst precords).length := by
    simp [processPermitsSync, hp1, hp2, hen]
  obtain ⟨hflat, hmem⟩ := permitsInitialSync_batches penv
    (sortPermitsLatestFirst precords)
    (sortPermitsLatestFirst precords).length hpu
  rw [hvio, hper]
  refine ⟨rfl, rfl, rfl, rfl, ?_, ?_, hflat, hmem⟩
  · simp [permitsInitialSync, hpu]
  · simp [permitsInitialSync, hpu]

/-- Claim C4 witness: the theorem applied to empty state tables with one
violation and one permit record. -/
theorem c4_initial_sync_exclusivity_witness :
    (processViolationsSync [] c4venv [c4vrec]).surfaced = [] ∧
    ((processPermitsSync [] c4penv [c4prec]).bulkApiBatches).flatten =
      (sortPermitsLatestFirst [c4prec]).filter c4penv.convOk := by
  have h := c4_initial_sync_exclusivity [] [] c4venv c4penv [c4vrec]
    [c4prec] rfl rfl rfl rfl rfl rfl rfl rfl
  exact ⟨h.2.2.1, h.2.2.2.2.2.2.1⟩

-- ========================================================================
-- Claim C9
-- ========================================================================

/-- Claim C9: when a sync run raises after the RunLog row is opened, the
RunLog is still completed with the error message and the counts accumulated
so far, and the same exception is re-raised to the caller: shown for the
empty-check failure (counts zero), a diff failure (counts zero), a final
state-upsert failure (counts reflect the per-Change successes and failures
of the whole change loop), and for the permits driver's cache
initialization failure; conversely, with no run-level failure the run
completes without an error message and returns normally even when
individual Changes failed (those are only counted). -/
theorem c9_runlog_completion (state pstate : List (String × String))
    (venv : VioSyncEnv) (records : List ViolationRecord)
    (penv : PermitSyncEnv) (precords : List PermitRecord) (e : String) :
    (venv.emptyCheckErr = some e →
      (processViolationsSync state venv records).completion =
        (records.length, 0, 0, some e) ∧
      (processViolationsSync state venv records).result = .error e) ∧
    (state ≠ [] → venv.emptyCheckErr = none → venv.diffErr = some e →
      (processViolationsSync state venv records).completion =
        (records.length, 0, 0, some e) ∧
      (processViolationsSync state venv records).result = .error e) ∧
    (state ≠ [] → venv.emptyCheckErr = none → venv.diffErr = none →
      venv.upsertErr = some e →
      (processViolationsSync state venv records).completion =
        (records.length,
         ((diffViolations state records).filter
           (fun c => (venv.changeErr c).isNone)).length,
         ((diffViolations state records).filter
           (fun c => (venv.changeErr c).isSome)).length, some e) ∧
      (processViolationsSync state venv records).result = .error e) ∧
    (venv.emptyCheckErr = none → venv.diffErr = none →
      venv.upsertErr = none →
      (processViolationsSync state venv records).result = .ok () ∧
      (processViolationsSync state venv records).completion.2.2.2 = none) ∧
    (penv.initCachesErr = some e →
      (processPermitsSync pstate penv precords).completion =
        (precords.length, 0, 0, some e) ∧
      (processPermitsSync pstate penv precords).result = .error e) := by
  refine ⟨?_, ?_, ?_, ?_, ?_⟩
  · intro h
    constructor <;> simp [processViolationsSync, h]
  · intro hne h1 h2
    have hie : state.isEmpty = false := by
      cases state with
      | nil => exact absurd rfl hne
      | cons a l => rfl
    constructor <;> simp [processViolationsSync, h1, h2, hie]
  · intro hne h1 h2 h3
    have hie : state.isEmpty = false := by
      cases state with
      | nil => exact absurd rfl hne
      | cons a l => rfl
    constructor <;> simp [processViolationsSync, h1, h2, h3, hie]
  · intro h1 h2 h3
    cases hie : state.isEmpty <;>
      constructor <;> simp [processViolationsSync, h1, h2, h3, hie]
  · intro h
    constructor <;> simp [processPermitsSync, h]

/-- Claim C9 witness: the theorem applied to an empty-check failure and,
for the no-failure conjunct, to an environment with no injected errors. -/
theorem c9_runlog_completion_witness :
    (processViolationsSync [] c9venv []).completion = (0, 0, 0, some "db down") ∧
    (processViolationsSync [] c4venv []).result = .ok () := by
  refine ⟨?_, ?_⟩
  · exact ((c9_runlog_completion [] [] c9venv [] c9penv [] "db down").1 rfl).1
  · exact ((c9_runlog_completion [] [] c4venv [] c9penv []
      "x").2.2.2.1 rfl rfl rfl).1
